import Mathlib

/-!
# Signalling server (`server.js`): session registry and call-state coordinator

A shallow embedding of the socket.io event handlers of `server.js`.

* `onlineUsers` and `calls` are plain JavaScript objects. They are embedded as
  association lists in property-insertion order, which is the order
  `Object.keys` enumerates them in (socket ids and call ids are never array
  indices). Only own properties are modelled: a lookup `calls[callId]` whose key
  names an inherited property of `Object.prototype`, such as `constructor`, is
  outside the embedding.
* A socket id is an opaque token of the transport; it is a non-empty string,
  hence always truthy, and is embedded as a natural number.
* A user id is a string chosen by the client. The empty string is falsy in
  JavaScript, which the handlers observe in `if (!callerId)` and `if (userId)`.
* `socket.userId` is a property of the socket object; `undefined` is `none`.
* Every handler returns the new state and the list of emitted events in
  emission order.
-/

namespace Server

/-- Opaque transport-level connection handle (`socket.id`). -/
abbrev SocketId := Nat

/-- Status of a call record: the string constants written by the handlers. -/
inductive Status where
  | ringing
  | active
  | rejected
  | ended
  deriving DecidableEq, Repr

/-- A value of the `calls` object: `{ caller, callee, status }`. -/
structure Call where
  caller : String
  callee : String
  status : Status
  deriving DecidableEq, Repr

/-- Addressee of an emit: `socket.emit` and `io.to(id).emit` reach one socket,
`io.emit` reaches every connected socket. -/
inductive Target where
  | socket (id : SocketId)
  | all
  deriving DecidableEq, Repr

/-- Outbound events with their payloads. -/
inductive Msg where
  | loginFailed (message : String)
  | loginSuccess (userId : String)
  | userStatus (userId : String) (status : String)
  | callFailed (message : String)
  | incomingCall (callId : String) (callerId : String)
  | callInitiated (callId : String) (calleeId : String)
  | callError (message : String)
  | callAnswered (callId : String)
  | callConnected (callId : String)
  | callRejected (callId : String)
  | callEnded (callId : String) (reason : Option String)
  | iceCandidate (callId : String) (candidate : String) (senderId : Option String)
  | offer (callId : String) (offer : String) (senderId : Option String)
  | answer (callId : String) (answer : String) (senderId : Option String)
  deriving DecidableEq, Repr

/-- One emitted event: addressee and message. -/
abbrev Emit := Target × Msg

/-! ## JavaScript objects as insertion-ordered association lists -/

section Obj

variable {κ : Type} {α : Type} [DecidableEq κ]

/-- The list `Object.keys(o)`. -/
def objKeys (o : List (κ × α)) : List κ :=
  o.map Prod.fst

/-- Property read `o[k]`; `none` is `undefined`. -/
def objGet (o : List (κ × α)) (k : κ) : Option α :=
  match o with
  | [] => none
  | (k0, v0) :: rest => if k0 = k then some v0 else objGet rest k

/-- Property write `o[k] = v`: an existing property keeps its position, a new
one is appended. -/
def objSet (o : List (κ × α)) (k : κ) (v : α) : List (κ × α) :=
  match o with
  | [] => [(k, v)]
  | (k0, v0) :: rest => if k0 = k then (k, v) :: rest else (k0, v0) :: objSet rest k v

/-- Property removal `delete o[k]`. -/
def objDelete (o : List (κ × α)) (k : κ) : List (κ × α) :=
  o.filter (fun p => decide (p.1 ≠ k))

/-- The expression `Object.keys(o).find(key => o[key] === v)`. -/
def findKey [DecidableEq α] (o : List (κ × α)) (v : α) : Option κ :=
  (objKeys o).find? (fun key => decide (objGet o key = some v))

end Obj

/-- Truthiness of a string value: only the empty string is falsy. -/
def truthy (x : String) : Bool :=
  decide (x ≠ "")

/-- Server state: the two module-level objects, the `userId` property of every
socket object, and the call ids captured by the pending `setTimeout` callbacks. -/
structure State where
  onlineUsers : List (SocketId × String)
  calls : List (String × Call)
  userId : List (SocketId × String)
  timers : List String
  deriving DecidableEq, Repr

/-- State at process start. -/
def State.init : State :=
  { onlineUsers := [], calls := [], userId := [], timers := [] }

/-- The `login` handler. -/
def login (s : State) (socket : SocketId) (userId : String) : State × List Emit :=
  match findKey s.onlineUsers userId with
  | some _ => (s, [(Target.socket socket, Msg.loginFailed "该用户ID已被使用，请选择其他ID")])
  | none =>
    ({ s with onlineUsers := objSet s.onlineUsers socket userId,
              userId := objSet s.userId socket userId },
     [(Target.socket socket, Msg.loginSuccess userId),
      (Target.all, Msg.userStatus userId "online")])

/-- The template literal that builds a call id. -/
def mkCallId (callerId calleeId : String) (now : Nat) : String :=
  callerId ++ "-" ++ calleeId ++ "-" ++ toString now

/-- The `call` handler; `now` is the value returned by `Date.now()`. -/
def call (s : State) (socket : SocketId) (calleeId : String) (now : Nat) : State × List Emit :=
  match objGet s.userId socket with
  | none => (s, [(Target.socket socket, Msg.callFailed "请先登录")])
  | some callerId =>
    if !truthy callerId then
      (s, [(Target.socket socket, Msg.callFailed "请先登录")])
    else if callerId = calleeId then
      (s, [(Target.socket socket, Msg.callFailed "不能呼叫自己")])
    else
      match findKey s.onlineUsers calleeId with
      | none => (s, [(Target.socket socket, Msg.callFailed "对方不在线")])
      | some calleeSocketId =>
        let callId := mkCallId callerId calleeId now
        ({ s with calls := objSet s.calls callId
                    { caller := callerId, callee := calleeId, status := Status.ringing } },
         [(Target.socket calleeSocketId, Msg.incomingCall callId callerId),
          (Target.socket socket, Msg.callInitiated callId calleeId)])

/-- Assignment `call.status = st` on the record stored under `callId`. -/
def setStatus (calls : List (String × Call)) (callId : String) (st : Status) :
    List (String × Call) :=
  match calls with
  | [] => []
  | (k0, c0) :: rest =>
    if k0 = callId then (k0, { c0 with status := st }) :: rest
    else (k0, c0) :: setStatus rest callId st

/-- The `answer-call` handler. -/
def answerCall (s : State) (socket : SocketId) (callId : String) : State × List Emit :=
  match objGet s.calls callId with
  | none => (s, [(Target.socket socket, Msg.callError "无效的通话")])
  | some c =>
    if some c.callee ≠ objGet s.userId socket then
      (s, [(Target.socket socket, Msg.callError "无效的通话")])
    else
      let s1 := { s with calls := setStatus s.calls callId Status.active }
      match findKey s.onlineUsers c.caller with
      | some callerSocketId =>
        (s1, [(Target.socket callerSocketId, Msg.callAnswered callId),
              (Target.socket socket, Msg.callConnected callId)])
      | none => (s1, [])

/-- The `reject-call` handler. -/
def rejectCall (s : State) (socket : SocketId) (callId : String) : State × List Emit :=
  match objGet s.calls callId with
  | none => (s, [])
  | some c =>
    if some c.callee ≠ objGet s.userId socket then
      (s, [])
    else
      let s1 := { s with calls := setStatus s.calls callId Status.rejected }
      match findKey s.onlineUsers c.caller with
      | some callerSocketId => (s1, [(Target.socket callerSocketId, Msg.callRejected callId)])
      | none => (s1, [])

/-- Emit of `call-ended` in the `end-call` handler, guarded by
`id && id !== socket.id`. -/
def endCallNotify (socket : SocketId) (callId : String) (found : Option SocketId) : List Emit :=
  match found with
  | some id => if id ≠ socket then [(Target.socket id, Msg.callEnded callId none)] else []
  | none => []

/-- The `end-call` handler; the `setTimeout` callback is recorded in `timers`. -/
def endCall (s : State) (socket : SocketId) (callId : String) : State × List Emit :=
  match objGet s.calls callId with
  | none => (s, [])
  | some c =>
    if some c.caller ≠ objGet s.userId socket ∧ some c.callee ≠ objGet s.userId socket then
      (s, [])
    else
      let callerSocketId := findKey s.onlineUsers c.caller
      let calleeSocketId := findKey s.onlineUsers c.callee
      ({ s with calls := setStatus s.calls callId Status.ended,
                timers := s.timers ++ [callId] },
       endCallNotify socket callId callerSocketId ++ endCallNotify socket callId calleeSocketId)

/-- The `ice-candidate` handler. -/
def iceCandidate (s : State) (socket : SocketId) (callId candidate : String) :
    State × List Emit :=
  match objGet s.calls callId with
  | none => (s, [])
  | some c =>
    let targetId := if some c.caller = objGet s.userId socket then c.callee else c.caller
    match findKey s.onlineUsers targetId with
    | some targetSocketId =>
      (s, [(Target.socket targetSocketId,
            Msg.iceCandidate callId candidate (objGet s.userId socket))])
    | none => (s, [])

/-- The `offer` handler. -/
def offer (s : State) (socket : SocketId) (callId offer : String) : State × List Emit :=
  match objGet s.calls callId with
  | none => (s, [])
  | some c =>
    if some c.caller ≠ objGet s.userId socket then (s, [])
    else
      match findKey s.onlineUsers c.callee with
      | some calleeSocketId =>
        (s, [(Target.socket calleeSocketId, Msg.offer callId offer (objGet s.userId socket))])
      | none => (s, [])

/-- The `answer` handler. -/
def answer (s : State) (socket : SocketId) (callId answer : String) : State × List Emit :=
  match objGet s.calls callId with
  | none => (s, [])
  | some c =>
    if some c.callee ≠ objGet s.userId socket then (s, [])
    else
      match findKey s.onlineUsers c.caller with
      | some callerSocketId =>
        (s, [(Target.socket callerSocketId, Msg.answer callId answer (objGet s.userId socket))])
      | none => (s, [])

/-- Body of the `forEach` callback of the `disconnect` handler for one call id.
`onlineUsers` is the registry after the departing socket was removed. A key
whose record is already gone is skipped; with distinct keys this cannot occur. -/
def disconnectCall (onlineUsers : List (SocketId × String)) (userId : String)
    (acc : List (String × Call) × List Emit) (callId : String) :
    List (String × Call) × List Emit :=
  match objGet acc.1 callId with
  | none => acc
  | some c =>
    if c.caller = userId ∨ c.callee = userId then
      let out :=
        if c.status = Status.active ∨ c.status = Status.ringing then
          let otherUserId := if c.caller = userId then c.callee else c.caller
          match findKey onlineUsers otherUserId with
          | some otherSocketId =>
            [(Target.socket otherSocketId, Msg.callEnded callId (some "对方已下线"))]
          | none => []
        else []
      (objDelete acc.1 callId, acc.2 ++ out)
    else acc

/-- The `disconnect` handler. -/
def disconnect (s : State) (socket : SocketId) : State × List Emit :=
  match objGet s.onlineUsers socket with
  | none => (s, [])
  | some userId =>
    if !truthy userId then (s, [])
    else
      let onlineUsers := objDelete s.onlineUsers socket
      let r := (objKeys s.calls).foldl (disconnectCall onlineUsers userId)
        (s.calls, [(Target.all, Msg.userStatus userId "offline")])
      ({ s with onlineUsers := onlineUsers, calls := r.1 }, r.2)

/-- The callback scheduled by `end-call`: `delete calls[callId]`. It runs only
while it is pending, and then once. -/
def purge (s : State) (callId : String) : State :=
  if callId ∈ s.timers then
    { s with calls := objDelete s.calls callId, timers := s.timers.erase callId }
  else s

/-- Inbound events of one socket. -/
inductive Event where
  | login (userId : String)
  | call (calleeId : String) (now : Nat)
  | answerCall (callId : String)
  | rejectCall (callId : String)
  | endCall (callId : String)
  | iceCandidate (callId : String) (candidate : String)
  | offer (callId : String) (offer : String)
  | answer (callId : String) (answer : String)
  | disconnect
  deriving DecidableEq, Repr

/-- Everything the event loop can run: a handler of some socket, or a purge
timer. -/
inductive Input where
  | fromSocket (socket : SocketId) (e : Event)
  | timer (callId : String)
  deriving DecidableEq, Repr

/-- Dispatch of one socket event to its handler. After the `disconnect` handler
has run the socket object is discarded, and with it its `userId` property. -/
def handle (s : State) (socket : SocketId) (e : Event) : State × List Emit :=
  match e with
  | Event.login userId => login s socket userId
  | Event.call calleeId now => call s socket calleeId now
  | Event.answerCall callId => answerCall s socket callId
  | Event.rejectCall callId => rejectCall s socket callId
  | Event.endCall callId => endCall s socket callId
  | Event.iceCandidate callId candidate => iceCandidate s socket callId candidate
  | Event.offer callId o => offer s socket callId o
  | Event.answer callId a => answer s socket callId a
  | Event.disconnect =>
    let r := disconnect s socket
    ({ r.1 with userId := objDelete r.1.userId socket }, r.2)

/-- One turn of the event loop. -/
def step (s : State) (i : Input) : State × List Emit :=
  match i with
  | Input.fromSocket socket e => handle s socket e
  | Input.timer callId => (purge s callId, [])

/-- Run a sequence of inputs, collecting the emits of every turn. -/
def run (s : State) (is : List Input) : State × List Emit :=
  is.foldl (fun acc i => let r := step acc.1 i; (r.1, acc.2 ++ r.2)) (s, [])

/-- States reachable from the initial state by any sequence of inputs. -/
inductive Reachable : State → Prop where
  | init : Reachable State.init
  | step {s : State} (i : Input) : Reachable s → Reachable (step s i).1

/-! ## Invariant, restricted reachability and sample traces -/

/-- Invariant of the reachable states: an identity is bound to at most one socket,
the `userId` property of a socket agrees with its registry entry, and no record
has the same caller and callee. -/
structure Inv (s : State) : Prop where
  unique : ∀ h1 h2 u, objGet s.onlineUsers h1 = some u →
    objGet s.onlineUsers h2 = some u → h1 = h2
  bound : ∀ h u, objGet s.userId h = some u → objGet s.onlineUsers h = some u
  distinct : ∀ k c, objGet s.calls k = some c → c.caller ≠ c.callee

/-- Trace: two logins with distinct identities. -/
def traceTwoLogins : List Input :=
  [Input.fromSocket 1 (Event.login "A"), Input.fromSocket 2 (Event.login "B")]

/-- Trace: the empty string logs in on socket 1, `B` on socket 2. -/
def traceEmptyIdentity : List Input :=
  [Input.fromSocket 1 (Event.login ""), Input.fromSocket 2 (Event.login "B")]

/-- Target of an `ice-candidate` relay as the specification words it: the
caller if the sender is the callee, else the callee. -/
def specIceTarget (r : Call) (sender : Option String) : String :=
  if sender = some r.callee then r.caller else r.callee

/-- Trace: `A`, `B` and `C` log in on sockets 1, 2 and 3, then `A` calls `B`. -/
def traceThirdParty : List Input :=
  [Input.fromSocket 1 (Event.login "A"), Input.fromSocket 2 (Event.login "B"),
   Input.fromSocket 3 (Event.login "C"), Input.fromSocket 1 (Event.call "B" 17)]

/-- Trace: `A` calls `B`, then the socket of `A` logs in again as `C`. -/
def traceRelogin : List Input :=
  [Input.fromSocket 1 (Event.login "A"), Input.fromSocket 2 (Event.login "B"),
   Input.fromSocket 1 (Event.call "B" 17), Input.fromSocket 1 (Event.login "C")]

/-- Trace: `A` calls `B`, `A` ends the call. -/
def traceEnded : List Input :=
  [Input.fromSocket 1 (Event.login "A"), Input.fromSocket 2 (Event.login "B"),
   Input.fromSocket 1 (Event.call "B" 17), Input.fromSocket 1 (Event.endCall "A-B-17")]

/-- Value of a string of decimal digits. -/
def decimalValue (l : List Char) : Nat :=
  l.foldl (fun acc ch => 10 * acc + (ch.toNat - 48)) 0

/-- Trace: `A` calls `B` at time 17 and `B` answers. -/
def traceAnswered : List Input :=
  [Input.fromSocket 1 (Event.login "A"), Input.fromSocket 2 (Event.login "B"),
   Input.fromSocket 1 (Event.call "B" 17), Input.fromSocket 2 (Event.answerCall "A-B-17")]

/-- Holds when the input is not a `call`, or is a `call` whose `Date.now()`
value is below `bound`. -/
def timestampBelow (bound : Nat) (i : Input) : Bool :=
  match i with
  | Input.fromSocket _ (Event.call _ now) => decide (now < bound)
  | _ => true

/-- States reachable by inputs whose `call` events all carry a `Date.now()`
value below `bound`. -/
inductive ReachableBefore (bound : Nat) : State → Prop where
  | init : ReachableBefore bound State.init
  | step {s : State} (i : Input) : ReachableBefore bound s → timestampBelow bound i = true →
      ReachableBefore bound (step s i).1

/-! ## Disconnect notices, single-login reachability and further traces -/

/-- The `call-ended` event that the disconnect of `userId` owes to one record:
the record names `userId`, is ringing or active, and its other party is bound
to a socket of `onlineUsers`. -/
def disconnectNotice (onlineUsers : List (SocketId × String)) (userId : String)
    (p : String × Call) : Option Emit :=
  if (p.2.caller = userId ∨ p.2.callee = userId) ∧
      (p.2.status = Status.active ∨ p.2.status = Status.ringing) then
    (findKey onlineUsers (if p.2.caller = userId then p.2.callee else p.2.caller)).map
      (fun otherSocketId => (Target.socket otherSocketId, Msg.callEnded p.1 (some "对方已下线")))
  else none

/-- Sockets that have completed a successful `login`, after one more input. -/
def loggedIn (done : List SocketId) (s : State) (i : Input) : List SocketId :=
  match i with
  | Input.fromSocket socket (Event.login userId) =>
    if findKey s.onlineUsers userId = none then socket :: done else done
  | _ => done

/-- Holds unless the input is a `login` that succeeds on a socket that has
already completed a successful `login`. -/
def firstLogin (done : List SocketId) (s : State) (i : Input) : Bool :=
  match i with
  | Input.fromSocket socket (Event.login userId) =>
    decide (findKey s.onlineUsers userId = none → socket ∉ done)
  | _ => true

/-- States reachable by inputs in which every socket performs at most one
successful `login`; the index lists the sockets that have done so. -/
inductive ReachableSingleLogin : List SocketId → State → Prop where
  | init : ReachableSingleLogin [] State.init
  | step {done : List SocketId} {s : State} (i : Input) : ReachableSingleLogin done s →
      firstLogin done s i = true → ReachableSingleLogin (loggedIn done s i) (step s i).1

/-- Both parties of every record are bound to a socket in the registry. -/
def PartiesBound (s : State) : Prop :=
  ∀ k c, objGet s.calls k = some c →
    (∃ h, objGet s.onlineUsers h = some c.caller) ∧ (∃ h, objGet s.onlineUsers h = some c.callee)

/-- Sockets that have completed a successful `login` after a sequence of inputs. -/
def loggedInAfter (done : List SocketId) (s : State) (is : List Input) : List SocketId :=
  match is with
  | [] => done
  | i :: rest => loggedInAfter (loggedIn done s i) (step s i).1 rest

/-- Holds when no input of the sequence is a second successful `login` of a socket. -/
def allFirstLogin (done : List SocketId) (s : State) (is : List Input) : Bool :=
  match is with
  | [] => true
  | i :: rest => firstLogin done s i && allFirstLogin (loggedIn done s i) (step s i).1 rest

/-- Emits of a sequence of inputs, one list per input. -/
def outputs (s : State) (is : List Input) : List (List Emit) :=
  match is with
  | [] => []
  | i :: rest => (step s i).2 :: outputs (step s i).1 rest

/-- Trace: the empty string logs in on socket 1, `A` on socket 2, and `A`
calls the empty identity. -/
def traceEmptyCallee : List Input :=
  [Input.fromSocket 1 (Event.login ""), Input.fromSocket 2 (Event.login "A"),
   Input.fromSocket 2 (Event.call "" 17)]

/-- Trace: `A` calls `B` and `B` rejects the call. -/
def traceRejected : List Input :=
  [Input.fromSocket 1 (Event.login "A"), Input.fromSocket 2 (Event.login "B"),
   Input.fromSocket 1 (Event.call "B" 17), Input.fromSocket 2 (Event.rejectCall "A-B-17")]

/-- The end-to-end scenario: `A` on `hA` and `B` on `hB` log in, `A` calls `B`
at time `now`, `B` answers, the two exchange offer, answer and one candidate
each, and `hA` disconnects. -/
def scenario (hA hB : SocketId) (now : Nat) (sdp1 sdp2 candA candB : String) : List Input :=
  [Input.fromSocket hA (Event.login "A"),
   Input.fromSocket hB (Event.login "B"),
   Input.fromSocket hA (Event.call "B" now),
   Input.fromSocket hB (Event.answerCall (mkCallId "A" "B" now)),
   Input.fromSocket hA (Event.offer (mkCallId "A" "B" now) sdp1),
   Input.fromSocket hB (Event.answer (mkCallId "A" "B" now) sdp2),
   Input.fromSocket hA (Event.iceCandidate (mkCallId "A" "B" now) candA),
   Input.fromSocket hB (Event.iceCandidate (mkCallId "A" "B" now) candB),
   Input.fromSocket hA Event.disconnect]

/-- Sockets whose `disconnect` occurs in a sequence of inputs. A socket id is
never given to a second connection, so these are the connections that are no
longer live. -/
def disconnected (is : List Input) : List SocketId :=
  is.filterMap (fun i =>
    match i with
    | Input.fromSocket socket Event.disconnect => some socket
    | _ => none)

/-- Trace: the empty string logs in on socket 1, `A` on socket 2, and socket 1
disconnects. -/
def traceStaleEntry : List Input :=
  [Input.fromSocket 1 (Event.login ""), Input.fromSocket 2 (Event.login "A"),
   Input.fromSocket 1 Event.disconnect]

/-- Trace: the empty string logs in on socket 1, `A` on socket 2, `A` calls the
empty identity, and socket 1 disconnects. -/
def traceStaleCallee : List Input :=
  [Input.fromSocket 1 (Event.login ""), Input.fromSocket 2 (Event.login "A"),
   Input.fromSocket 2 (Event.call "" 17), Input.fromSocket 1 Event.disconnect]

/-! ## Lemmas on objects -/

section ObjLemmas

variable {κ : Type} {α : Type} [DecidableEq κ]

theorem objGet_objSet (o : List (κ × α)) (k k' : κ) (v : α) :
    objGet (objSet o k v) k' = if k' = k then some v else objGet o k' := by
  induction o with
  | nil =>
    by_cases h : k' = k
    · simp [objSet, objGet, h]
    · have h' : ¬ k = k' := fun e => h e.symm
      simp [objSet, objGet, h, h']
  | cons p rest ih =>
    obtain ⟨k0, v0⟩ := p
    by_cases h0 : k0 = k
    · by_cases h : k' = k
      · simp [objSet, objGet, h0, h]
      · have h' : ¬ k = k' := fun e => h e.symm
        simp [objSet, objGet, h0, h, h']
    · by_cases h : k' = k
      · subst h
        simp at ih
        simp [objSet, objGet, h0, ih]
      · by_cases h1 : k0 = k'
        · simp [objSet, objGet, h0, h, h1]
        · simp [objSet, objGet, h0, h, h1, ih]

theorem objGet_objDelete (o : List (κ × α)) (k k' : κ) :
    objGet (objDelete o k) k' = if k' = k then none else objGet o k' := by
  induction o with
  | nil => simp [objDelete, objGet]
  | cons p rest ih =>
    obtain ⟨k0, v0⟩ := p
    unfold objDelete at ih ⊢
    by_cases h0 : k0 = k
    · by_cases h : k' = k
      · simp [objGet, h0, h] at ih ⊢
        exact ih
      · have h' : ¬ k = k' := fun e => h e.symm
        simp [objGet, h0, h, h'] at ih ⊢
        exact ih
    · by_cases h : k' = k
      · simp [List.filter, objGet, h0, h] at ih ⊢
        exact ih
      · by_cases h1 : k0 = k'
        · simp [List.filter, objGet, h0, h, h1]
        · simp [List.filter, objGet, h0, h, h1] at ih ⊢
          exact ih

theorem mem_objKeys_of_objGet (o : List (κ × α)) (k : κ) (v : α)
    (h : objGet o k = some v) : k ∈ objKeys o := by
  induction o with
  | nil => simp [objGet] at h
  | cons p rest ih =>
    obtain ⟨k0, v0⟩ := p
    by_cases h0 : k0 = k
    · simp [objKeys, h0]
    · simp [objGet, h0] at h
      have := ih h
      simp [objKeys] at this ⊢
      exact Or.inr this

theorem objSet_of_objGet_none (o : List (κ × α)) (k : κ) (v : α)
    (h : objGet o k = none) : objSet o k v = o ++ [(k, v)] := by
  induction o with
  | nil => rfl
  | cons p rest ih =>
    obtain ⟨k0, v0⟩ := p
    by_cases h0 : k0 = k
    · simp [objGet, h0] at h
    · simp only [objGet, h0, if_false] at h
      simp [objSet, h0, ih h]

theorem not_mem_objKeys_of_objGet_none (o : List (κ × α)) (k : κ)
    (h : objGet o k = none) : k ∉ objKeys o := by
  induction o with
  | nil => simp [objKeys]
  | cons p rest ih =>
    obtain ⟨k0, v0⟩ := p
    by_cases h0 : k0 = k
    · simp [objGet, h0] at h
    · simp only [objGet, h0, if_false] at h
      have := ih h
      simp only [objKeys, List.map_cons, List.mem_cons, not_or] at this ⊢
      exact ⟨fun e => h0 e.symm, this⟩

variable [DecidableEq α]

theorem objGet_of_findKey (o : List (κ × α)) (v : α) (k : κ)
    (h : findKey o v = some k) : objGet o k = some v := by
  unfold findKey at h
  have := List.find?_some h
  simpa using this

theorem findKey_eq_none_iff (o : List (κ × α)) (v : α) :
    findKey o v = none ↔ ∀ k, objGet o k ≠ some v := by
  unfold findKey
  rw [List.find?_eq_none]
  constructor
  · intro h k hk
    have := h k (mem_objKeys_of_objGet o k v hk)
    simp at this
    exact this hk
  · intro h k _
    simpa using h k

theorem findKey_isSome_of_objGet (o : List (κ × α)) (v : α) (k : κ)
    (h : objGet o k = some v) : ∃ k', findKey o v = some k' := by
  cases hf : findKey o v with
  | some k' => exact ⟨k', rfl⟩
  | none => exact absurd h ((findKey_eq_none_iff o v).1 hf k)

end ObjLemmas

theorem objGet_setStatus (calls : List (String × Call)) (k k' : String) (st : Status) :
    objGet (setStatus calls k st) k' =
      if k' = k then (objGet calls k').map (fun c => { c with status := st })
      else objGet calls k' := by
  induction calls with
  | nil => simp [setStatus, objGet]
  | cons p rest ih =>
    obtain ⟨k0, c0⟩ := p
    by_cases h0 : k0 = k
    · by_cases h : k' = k
      · subst h0; subst h
        simp [setStatus, objGet]
      · have h1 : ¬ k0 = k' := fun e => h (e ▸ h0)
        simp [setStatus, objGet, h0, h]
        subst h0
        simp [h1]
    · by_cases h1 : k0 = k'
      · have h : ¬ k' = k := fun e => h0 (h1.trans e)
        simp [setStatus, objGet, h0, h1, h]
      · simp [setStatus, objGet, h0, h1, ih]

theorem objGet_setStatus_some (calls : List (String × Call)) (k k' : String) (st : Status)
    (c : Call) (h : objGet (setStatus calls k st) k' = some c) :
    ∃ c0, objGet calls k' = some c0 := by
  rw [objGet_setStatus] at h
  split at h
  · cases h0 : objGet calls k' with
    | none => simp [h0] at h
    | some c0 => exact ⟨c0, rfl⟩
  · exact ⟨c, h⟩

theorem setStatus_change (calls : List (String × Call)) (k callId : String) (st : Status)
    (c c' : Call) (h : objGet calls callId = some c)
    (h' : objGet (setStatus calls k st) callId = some c') (hne : c.status ≠ c'.status) :
    k = callId ∧ c' = { c with status := st } := by
  rw [objGet_setStatus] at h'
  split at h'
  · rename_i e
    rw [h] at h'
    simp only [Option.map_some', Option.some.injEq] at h'
    exact ⟨e.symm, h'.symm⟩
  · rw [h] at h'
    cases h'
    exact absurd rfl hne

/-! ## Handlers that leave the state alone -/

theorem iceCandidate_state (s : State) (socket : SocketId) (callId candidate : String) :
    (iceCandidate s socket callId candidate).1 = s := by
  unfold iceCandidate
  cases objGet s.calls callId with
  | none => rfl
  | some c =>
    simp only
    split <;> rfl

theorem offer_state (s : State) (socket : SocketId) (callId o : String) :
    (offer s socket callId o).1 = s := by
  unfold offer
  cases objGet s.calls callId with
  | none => rfl
  | some c =>
    simp only
    split
    · rfl
    · split <;> rfl

theorem answer_state (s : State) (socket : SocketId) (callId a : String) :
    (answer s socket callId a).1 = s := by
  unfold answer
  cases objGet s.calls callId with
  | none => rfl
  | some c =>
    simp only
    split
    · rfl
    · split <;> rfl

/-! ## The invariant holds in every reachable state -/

theorem inv_init : Inv State.init := by
  constructor <;> intros <;> simp_all [State.init, objGet]

theorem login_inv (s : State) (socket : SocketId) (userId : String) (hi : Inv s) :
    Inv (login s socket userId).1 := by
  unfold login
  cases hf : findKey s.onlineUsers userId with
  | some k => exact hi
  | none =>
    have hnone := (findKey_eq_none_iff _ _).1 hf
    constructor
    · intro h1 h2 u e1 e2
      simp only [objGet_objSet] at e1 e2
      by_cases c1 : h1 = socket <;> by_cases c2 : h2 = socket
      · rw [c1, c2]
      · simp [c1, c2] at e1 e2
        subst e1
        exact absurd e2 (hnone h2)
      · simp [c1, c2] at e1 e2
        subst e2
        exact absurd e1 (hnone h1)
      · simp [c1, c2] at e1 e2
        exact hi.unique h1 h2 u e1 e2
    · intro h u e
      simp only [objGet_objSet] at e ⊢
      by_cases c : h = socket
      · simpa [c] using e
      · simp [c] at e ⊢
        exact hi.bound h u e
    · exact hi.distinct

theorem call_inv (s : State) (socket : SocketId) (calleeId : String) (now : Nat) (hi : Inv s) :
    Inv (call s socket calleeId now).1 := by
  unfold call
  cases hu : objGet s.userId socket with
  | none => exact hi
  | some callerId =>
    simp only
    split
    · exact hi
    · split
      · exact hi
      · rename_i hne
        cases hf : findKey s.onlineUsers calleeId with
        | none => exact hi
        | some k =>
          refine ⟨hi.unique, hi.bound, ?_⟩
          intro k c e
          simp only [objGet_objSet] at e
          split at e
          · cases e
            exact hne
          · exact hi.distinct k c e

theorem setStatus_distinct (s : State) (callId : String) (st : Status) (hi : Inv s) :
    ∀ k c, objGet (setStatus s.calls callId st) k = some c → c.caller ≠ c.callee := by
  intro k c e
  rw [objGet_setStatus] at e
  split at e
  · cases h : objGet s.calls k with
    | none => simp [h] at e
    | some c0 =>
      simp [h] at e
      subst e
      exact hi.distinct k c0 h
  · exact hi.distinct k c e

theorem answerCall_inv (s : State) (socket : SocketId) (callId : String) (hi : Inv s) :
    Inv (answerCall s socket callId).1 := by
  unfold answerCall
  cases hc : objGet s.calls callId with
  | none => exact hi
  | some c =>
    simp only
    split
    · exact hi
    · cases hf : findKey s.onlineUsers c.caller <;>
        exact ⟨hi.unique, hi.bound, setStatus_distinct s callId _ hi⟩

theorem rejectCall_inv (s : State) (socket : SocketId) (callId : String) (hi : Inv s) :
    Inv (rejectCall s socket callId).1 := by
  unfold rejectCall
  cases hc : objGet s.calls callId with
  | none => exact hi
  | some c =>
    simp only
    split
    · exact hi
    · cases hf : findKey s.onlineUsers c.caller <;>
        exact ⟨hi.unique, hi.bound, setStatus_distinct s callId _ hi⟩

theorem endCall_inv (s : State) (socket : SocketId) (callId : String) (hi : Inv s) :
    Inv (endCall s socket callId).1 := by
  unfold endCall
  cases hc : objGet s.calls callId with
  | none => exact hi
  | some c =>
    simp only
    split
    · exact hi
    · exact ⟨hi.unique, hi.bound, setStatus_distinct s callId _ hi⟩

theorem disconnectCall_get (ou : List (SocketId × String)) (u : String)
    (acc : List (String × Call) × List Emit) (callId k : String) (c : Call)
    (h : objGet (disconnectCall ou u acc callId).1 k = some c) : objGet acc.1 k = some c := by
  unfold disconnectCall at h
  cases hc : objGet acc.1 callId with
  | none => simpa [hc] using h
  | some c0 =>
    simp only [hc] at h
    split at h
    · simp only [objGet_objDelete] at h
      split at h
      · cases h
      · exact h
    · exact h

theorem disconnect_fold_get (ou : List (SocketId × String)) (u : String) (ks : List String) :
    ∀ (acc : List (String × Call) × List Emit) (k : String) (c : Call),
      objGet (ks.foldl (disconnectCall ou u) acc).1 k = some c → objGet acc.1 k = some c := by
  induction ks with
  | nil => intro acc k c h; simpa using h
  | cons k0 rest ih =>
    intro acc k c h
    simp only [List.foldl_cons] at h
    exact disconnectCall_get ou u acc k0 k c (ih _ k c h)

theorem disconnect_inv (s : State) (socket : SocketId) (hi : Inv s) :
    Inv (handle s socket Event.disconnect).1 := by
  have hb : ∀ (ou : List (SocketId × String)),
      (∀ h u, h ≠ socket → objGet s.onlineUsers h = some u → objGet ou h = some u) →
      ∀ h u, objGet (objDelete s.userId socket) h = some u → objGet ou h = some u := by
    intro ou hou h u e
    rw [objGet_objDelete] at e
    split at e
    · cases e
    · rename_i hne
      exact hou h u hne (hi.bound h u e)
  unfold handle disconnect
  cases hu : objGet s.onlineUsers socket with
  | none => exact ⟨hi.unique, hb _ (fun _ _ _ e => e), hi.distinct⟩
  | some userId =>
    simp only
    split
    · exact ⟨hi.unique, hb _ (fun _ _ _ e => e), hi.distinct⟩
    · refine ⟨?_, ?_, ?_⟩
      · intro h1 h2 u e1 e2
        simp only [objGet_objDelete] at e1 e2
        split at e1
        · cases e1
        · split at e2
          · cases e2
          · exact hi.unique h1 h2 u e1 e2
      · apply hb
        intro h u hne e
        simp [objGet_objDelete, hne, e]
      · intro k c e
        exact hi.distinct k c (disconnect_fold_get _ _ _ _ k c e)

theorem purge_inv (s : State) (callId : String) (hi : Inv s) : Inv (purge s callId) := by
  unfold purge
  split
  · refine ⟨hi.unique, hi.bound, ?_⟩
    intro k c e
    simp only [objGet_objDelete] at e
    split at e
    · cases e
    · exact hi.distinct k c e
  · exact hi

theorem step_inv (s : State) (i : Input) (hi : Inv s) : Inv (step s i).1 := by
  cases i with
  | timer callId => exact purge_inv s callId hi
  | fromSocket socket e =>
    cases e with
    | login userId => exact login_inv s socket userId hi
    | call calleeId now => exact call_inv s socket calleeId now hi
    | answerCall callId => exact answerCall_inv s socket callId hi
    | rejectCall callId => exact rejectCall_inv s socket callId hi
    | endCall callId => exact endCall_inv s socket callId hi
    | iceCandidate callId candidate =>
      show Inv (iceCandidate s socket callId candidate).1
      rw [iceCandidate_state]; exact hi
    | offer callId o =>
      show Inv (offer s socket callId o).1
      rw [offer_state]; exact hi
    | answer callId a =>
      show Inv (answer s socket callId a).1
      rw [answer_state]; exact hi
    | disconnect => exact disconnect_inv s socket hi

theorem reachable_inv (s : State) (h : Reachable s) : Inv s := by
  induction h with
  | init => exact inv_init
  | step i _ ih => exact step_inv _ i ih

theorem reachable_run_from (is : List Input) :
    ∀ (s : State) (out : List Emit), Reachable s →
      Reachable (is.foldl (fun acc i => ((step acc.1 i).1, acc.2 ++ (step acc.1 i).2)) (s, out)).1 := by
  induction is with
  | nil => intro s out h; exact h
  | cons i rest ih =>
    intro s out h
    simp only [List.foldl_cons]
    exact ih _ _ (Reachable.step i h)

theorem reachable_run (is : List Input) : Reachable (run State.init is).1 :=
  reachable_run_from is State.init [] Reachable.init

theorem findKey_own (s : State) (hi : Inv s) (socket : SocketId) (u : String)
    (hu : objGet s.userId socket = some u) : findKey s.onlineUsers u = some socket := by
  have hb := hi.bound socket u hu
  obtain ⟨k, hk⟩ := findKey_isSome_of_objGet s.onlineUsers u socket hb
  rw [hk, hi.unique k socket u (objGet_of_findKey _ _ _ hk) hb]

theorem findKey_other_ne (s : State) (hi : Inv s) (socket h : SocketId) (u v : String)
    (hu : objGet s.userId socket = some u) (huv : u ≠ v)
    (hf : findKey s.onlineUsers v = some h) : h ≠ socket := by
  intro e
  subst e
  have h1 := hi.bound h u hu
  have h2 := objGet_of_findKey _ _ _ hf
  rw [h1] at h2
  exact huv (Option.some.inj h2)

theorem reachableBefore_run_from (bound : Nat) (is : List Input) :
    ∀ (s : State) (out : List Emit), ReachableBefore bound s →
      (∀ i ∈ is, timestampBelow bound i = true) →
      ReachableBefore bound
        (is.foldl (fun acc i => ((step acc.1 i).1, acc.2 ++ (step acc.1 i).2)) (s, out)).1 := by
  induction is with
  | nil => intro s out h _; exact h
  | cons i rest ih =>
    intro s out h hall
    simp only [List.foldl_cons]
    exact ih _ _ (ReachableBefore.step i h (hall i (List.mem_cons_self i rest)))
      (fun j hj => hall j (List.mem_cons_of_mem i hj))

theorem reachableBefore_run (bound : Nat) (is : List Input)
    (h : ∀ i ∈ is, timestampBelow bound i = true) :
    ReachableBefore bound (run State.init is).1 :=
  reachableBefore_run_from bound is State.init [] ReachableBefore.init h

theorem timestampBelow_of_le (i : Input) :
    ∃ b0, ∀ b, b0 ≤ b → timestampBelow b i = true := by
  cases i with
  | timer callId => exact ⟨0, fun _ _ => rfl⟩
  | fromSocket socket e =>
    cases e with
    | call calleeId now =>
      refine ⟨now + 1, fun b hb => ?_⟩
      simp only [timestampBelow, decide_eq_true_eq]
      omega
    | login userId => exact ⟨0, fun _ _ => rfl⟩
    | answerCall callId => exact ⟨0, fun _ _ => rfl⟩
    | rejectCall callId => exact ⟨0, fun _ _ => rfl⟩
    | endCall callId => exact ⟨0, fun _ _ => rfl⟩
    | iceCandidate callId candidate => exact ⟨0, fun _ _ => rfl⟩
    | offer callId o => exact ⟨0, fun _ _ => rfl⟩
    | answer callId a => exact ⟨0, fun _ _ => rfl⟩
    | disconnect => exact ⟨0, fun _ _ => rfl⟩

theorem timestampBelow_mono (b b1 : Nat) (hb : b ≤ b1) (i : Input)
    (h : timestampBelow b i = true) : timestampBelow b1 i = true := by
  cases i with
  | timer callId => rfl
  | fromSocket socket e =>
    cases e with
    | call calleeId now =>
      simp only [timestampBelow, decide_eq_true_eq] at h ⊢
      omega
    | login userId => rfl
    | answerCall callId => rfl
    | rejectCall callId => rfl
    | endCall callId => rfl
    | iceCandidate callId candidate => rfl
    | offer callId o => rfl
    | answer callId a => rfl
    | disconnect => rfl

theorem reachableBefore_mono (b b1 : Nat) (hb : b ≤ b1) (s : State)
    (h : ReachableBefore b s) : ReachableBefore b1 s := by
  induction h with
  | init => exact ReachableBefore.init
  | step i _ hi ih => exact ReachableBefore.step i ih (timestampBelow_mono b b1 hb i hi)

/-- Every reachable state is reachable with all `call` timestamps below some bound. -/
theorem reachable_exists_bound (s : State) (h : Reachable s) :
    ∃ bound, ReachableBefore bound s := by
  induction h with
  | init => exact ⟨0, ReachableBefore.init⟩
  | step i _ ih =>
    obtain ⟨b, hb⟩ := ih
    obtain ⟨b0, h0⟩ := timestampBelow_of_le i
    exact ⟨max b b0, ReachableBefore.step i
      (reachableBefore_mono b (max b b0) (Nat.le_max_left b b0) _ hb)
      (h0 (max b b0) (Nat.le_max_right b b0))⟩

/-! ## Call ids determine their timestamp -/

theorem digitChar_spec : ∀ k, k < 10 →
    (Nat.digitChar k).toNat - 48 = k ∧ Nat.digitChar k ≠ '-' := by
  decide

theorem decimalValue_append_singleton (l : List Char) (ch : Char) :
    decimalValue (l ++ [ch]) = 10 * decimalValue l + (ch.toNat - 48) := by
  simp [decimalValue, List.foldl_append]

theorem toDigitsCore_spec : ∀ (fuel n : Nat) (ds : List Char), n < fuel →
    ∃ l, Nat.toDigitsCore 10 fuel n ds = l ++ ds ∧ (∀ ch ∈ l, ch ≠ '-') ∧
      decimalValue l = n := by
  intro fuel
  induction fuel with
  | zero => intro n ds h; omega
  | succ fuel ih =>
    intro n ds h
    have hd := digitChar_spec (n % 10) (Nat.mod_lt _ (by decide))
    simp only [Nat.toDigitsCore]
    split
    · rename_i h0
      refine ⟨[Nat.digitChar (n % 10)], rfl, ?_, ?_⟩
      · intro ch hch
        rw [List.mem_singleton] at hch
        rw [hch]
        exact hd.2
      · have := decimalValue_append_singleton [] (Nat.digitChar (n % 10))
        simp only [List.nil_append] at this
        rw [this, hd.1]
        simp only [decimalValue, List.foldl_nil]
        omega
    · rename_i h0
      have hlt : n / 10 < fuel := by omega
      obtain ⟨l, h1, h2, h3⟩ := ih (n / 10) (Nat.digitChar (n % 10) :: ds) hlt
      refine ⟨l ++ [Nat.digitChar (n % 10)], ?_, ?_, ?_⟩
      · rw [h1]
        simp
      · intro ch hch
        rw [List.mem_append, List.mem_singleton] at hch
        rcases hch with hch | hch
        · exact h2 ch hch
        · rw [hch]
          exact hd.2
      · rw [decimalValue_append_singleton, h3, hd.1]
        omega

theorem toDigits_spec (n : Nat) :
    (∀ ch ∈ Nat.toDigits 10 n, ch ≠ '-') ∧ decimalValue (Nat.toDigits 10 n) = n := by
  obtain ⟨l, h1, h2, h3⟩ := toDigitsCore_spec (n + 1) n [] (Nat.lt_succ_self n)
  unfold Nat.toDigits
  rw [h1, List.append_nil]
  exact ⟨h2, h3⟩

theorem last_segment_eq : ∀ (xs ys ds es : List Char), (∀ ch ∈ ds, ch ≠ '-') →
    (∀ ch ∈ es, ch ≠ '-') → xs ++ '-' :: ds = ys ++ '-' :: es → ds = es := by
  intro xs
  induction xs with
  | nil =>
    intro ys ds es hd _ h
    cases ys with
    | nil => simpa using h
    | cons y ys =>
      simp only [List.nil_append, List.cons_append, List.cons.injEq] at h
      exact absurd rfl (hd '-' (by rw [h.2]; simp))
  | cons x xs ih =>
    intro ys ds es hd he h
    cases ys with
    | nil =>
      simp only [List.nil_append, List.cons_append, List.cons.injEq] at h
      exact absurd rfl (he '-' (by rw [← h.2]; simp))
    | cons y ys =>
      simp only [List.cons_append, List.cons.injEq] at h
      exact ih ys ds es hd he h.2

theorem toString_data (n : Nat) : (toString n).data = Nat.toDigits 10 n := rfl

theorem mkCallId_timestamp (a b a' b' : String) (t t' : Nat)
    (h : mkCallId a b t = mkCallId a' b' t') : t = t' := by
  have hdata := congrArg String.data h
  simp only [mkCallId, String.data_append, toString_data] at hdata
  have hd := last_segment_eq (a.data ++ ['-'] ++ b.data) (a'.data ++ ['-'] ++ b'.data)
    (Nat.toDigits 10 t) (Nat.toDigits 10 t') (toDigits_spec t).1 (toDigits_spec t').1
    (by simpa using hdata)
  rw [← (toDigits_spec t).2, ← (toDigits_spec t').2, hd]

theorem step_calls_key (s : State) (i : Input) (k : String) (c : Call)
    (h : objGet (step s i).1.calls k = some c) :
    (∃ c0, objGet s.calls k = some c0) ∨
    ∃ socket calleeId now callerId, i = Input.fromSocket socket (Event.call calleeId now) ∧
      k = mkCallId callerId calleeId now := by
  cases i with
  | timer k0 =>
    simp only [step, purge] at h
    split at h
    · simp only [objGet_objDelete] at h
      split at h
      · cases h
      · exact Or.inl ⟨c, h⟩
    · exact Or.inl ⟨c, h⟩
  | fromSocket socket e =>
    cases e with
    | login userId =>
      simp only [step, handle, login] at h
      split at h <;> exact Or.inl ⟨c, h⟩
    | iceCandidate k0 x =>
      change objGet (iceCandidate s socket k0 x).1.calls k = some c at h
      rw [iceCandidate_state] at h
      exact Or.inl ⟨c, h⟩
    | offer k0 x =>
      change objGet (offer s socket k0 x).1.calls k = some c at h
      rw [offer_state] at h
      exact Or.inl ⟨c, h⟩
    | answer k0 x =>
      change objGet (answer s socket k0 x).1.calls k = some c at h
      rw [answer_state] at h
      exact Or.inl ⟨c, h⟩
    | disconnect =>
      simp only [step, handle, disconnect] at h
      split at h
      · exact Or.inl ⟨c, h⟩
      · split at h
        · exact Or.inl ⟨c, h⟩
        · exact Or.inl ⟨c, disconnect_fold_get _ _ _ _ _ _ h⟩
    | call calleeId now =>
      simp only [step, handle, call] at h
      split at h
      · exact Or.inl ⟨c, h⟩
      · rename_i callerId hu
        split at h
        · exact Or.inl ⟨c, h⟩
        · split at h
          · exact Or.inl ⟨c, h⟩
          · split at h
            · exact Or.inl ⟨c, h⟩
            · simp only [objGet_objSet] at h
              split at h
              · rename_i e
                exact Or.inr ⟨socket, calleeId, now, callerId, rfl, e⟩
              · exact Or.inl ⟨c, h⟩
    | answerCall k0 =>
      simp only [step, handle, answerCall] at h
      split at h
      · exact Or.inl ⟨c, h⟩
      · split at h
        · exact Or.inl ⟨c, h⟩
        · have hs : objGet (setStatus s.calls k0 Status.active) k = some c := by
            split at h <;> exact h
          exact Or.inl (objGet_setStatus_some _ _ _ _ _ hs)
    | rejectCall k0 =>
      simp only [step, handle, rejectCall] at h
      split at h
      · exact Or.inl ⟨c, h⟩
      · split at h
        · exact Or.inl ⟨c, h⟩
        · have hs : objGet (setStatus s.calls k0 Status.rejected) k = some c := by
            split at h <;> exact h
          exact Or.inl (objGet_setStatus_some _ _ _ _ _ hs)
    | endCall k0 =>
      simp only [step, handle, endCall] at h
      split at h
      · exact Or.inl ⟨c, h⟩
      · split at h
        · exact Or.inl ⟨c, h⟩
        · exact Or.inl (objGet_setStatus_some _ _ _ _ _ h)

theorem reachableBefore_keys (bound : Nat) (s : State) (hs : ReachableBefore bound s) :
    ∀ k c, objGet s.calls k = some c →
      ∃ a b t, k = mkCallId a b t ∧ t < bound := by
  induction hs with
  | init => intro k c h; simp [State.init, objGet] at h
  | step i _ hi ih =>
    intro k c h
    rcases step_calls_key _ i k c h with ⟨c0, h0⟩ | ⟨socket, calleeId, now, callerId, e1, e2⟩
    · exact ih k c0 h0
    · subst e1
      exact ⟨callerId, calleeId, now, e2, by simpa [timestampBelow] using hi⟩

/-! ## Output of single handlers -/

/-- Successful path of `call`: a sender whose `userId` is a non-empty string `a`
calls an identity `b ≠ a` that `findKey` resolves to the socket `hB`. -/
theorem call_creates_record (s : State) (socket hB : SocketId) (a b : String) (now : Nat)
    (hu : objGet s.userId socket = some a) (ha : a ≠ "") (hab : b ≠ a)
    (hf : findKey s.onlineUsers b = some hB) :
    step s (Input.fromSocket socket (Event.call b now)) =
      ({ s with calls := objSet s.calls (mkCallId a b now)
                  { caller := a, callee := b, status := Status.ringing } },
       [(Target.socket hB, Msg.incomingCall (mkCallId a b now) a),
        (Target.socket socket, Msg.callInitiated (mkCallId a b now) b)]) := by
  have hab' : ¬ a = b := fun e => hab e.symm
  simp [step, handle, call, hu, truthy, ha, hab', hf]

theorem offer_out (s : State) (socket : SocketId) (callId o : String) :
    ((offer s socket callId o).2 = [] ∧
      ¬ ∃ c h, objGet s.calls callId = some c ∧ objGet s.userId socket = some c.caller ∧
        objGet s.onlineUsers h = some c.callee) ∨
    ∃ c h, objGet s.calls callId = some c ∧ objGet s.userId socket = some c.caller ∧
      findKey s.onlineUsers c.callee = some h ∧
      (offer s socket callId o).2 = [(Target.socket h, Msg.offer callId o (some c.caller))] := by
  cases hc : objGet s.calls callId with
  | none => left; simp [offer, hc]
  | some c =>
    by_cases hu : objGet s.userId socket = some c.caller
    · cases hf : findKey s.onlineUsers c.callee with
      | none =>
        left
        refine ⟨by simp [offer, hc, hu, hf], ?_⟩
        rintro ⟨c', h, e1, _, e3⟩
        cases e1
        exact (findKey_eq_none_iff _ _).1 hf h e3
      | some h =>
        right
        exact ⟨c, h, rfl, hu, hf, by simp [offer, hc, hu, hf]⟩
    · left
      have hu' : ¬ some c.caller = objGet s.userId socket := fun e => hu e.symm
      refine ⟨by simp [offer, hc, hu'], ?_⟩
      rintro ⟨c', h, e1, e2, _⟩
      cases e1
      exact hu e2

theorem answer_out (s : State) (socket : SocketId) (callId a : String) :
    ((answer s socket callId a).2 = [] ∧
      ¬ ∃ c h, objGet s.calls callId = some c ∧ objGet s.userId socket = some c.callee ∧
        objGet s.onlineUsers h = some c.caller) ∨
    ∃ c h, objGet s.calls callId = some c ∧ objGet s.userId socket = some c.callee ∧
      findKey s.onlineUsers c.caller = some h ∧
      (answer s socket callId a).2 = [(Target.socket h, Msg.answer callId a (some c.callee))] := by
  cases hc : objGet s.calls callId with
  | none => left; simp [answer, hc]
  | some c =>
    by_cases hu : objGet s.userId socket = some c.callee
    · cases hf : findKey s.onlineUsers c.caller with
      | none =>
        left
        refine ⟨by simp [answer, hc, hu, hf], ?_⟩
        rintro ⟨c', h, e1, _, e3⟩
        cases e1
        exact (findKey_eq_none_iff _ _).1 hf h e3
      | some h =>
        right
        exact ⟨c, h, rfl, hu, hf, by simp [answer, hc, hu, hf]⟩
    · left
      have hu' : ¬ some c.callee = objGet s.userId socket := fun e => hu e.symm
      refine ⟨by simp [answer, hc, hu'], ?_⟩
      rintro ⟨c', h, e1, e2, _⟩
      cases e1
      exact hu e2

/-! ## Registry -/

/-- Claim C1 (registry uniqueness invariant): in every state reachable from the
initial state by any sequence of socket events and purge timers, two distinct
socket ids are never bound to the same identity in `onlineUsers`. -/
theorem registry_unique_identity (s : State) (hs : Reachable s) (h1 h2 : SocketId) (u : String)
    (hne : h1 ≠ h2) (e1 : objGet s.onlineUsers h1 = some u) :
    objGet s.onlineUsers h2 ≠ some u :=
  fun e2 => hne ((reachable_inv s hs).unique h1 h2 u e1 e2)

/-- Instance of C1 after two logins: socket 1 holds `A`, so socket 2 does not. -/
theorem registry_unique_identity_witness :
    Reachable (run State.init traceTwoLogins).1 ∧ (1 : SocketId) ≠ 2 ∧
      objGet (run State.init traceTwoLogins).1.onlineUsers 1 = some "A" ∧
      objGet (run State.init traceTwoLogins).1.onlineUsers 2 ≠ some "A" :=
  ⟨reachable_run traceTwoLogins, by decide, by decide,
    registry_unique_identity (run State.init traceTwoLogins).1 (reachable_run traceTwoLogins)
      1 2 "A" (by decide) (by decide)⟩

/-- Claim C2: a `login` with an identity that some socket already holds in the
registry emits exactly one event, `login-failed`, to the sender, and returns the
state unchanged (registry, call table, socket properties and timers). -/
theorem login_taken_fails (s : State) (socket holder : SocketId) (userId : String)
    (hb : objGet s.onlineUsers holder = some userId) :
    step s (Input.fromSocket socket (Event.login userId)) =
      (s, [(Target.socket socket, Msg.loginFailed "该用户ID已被使用，请选择其他ID")]) := by
  obtain ⟨k, hk⟩ := findKey_isSome_of_objGet s.onlineUsers userId holder hb
  simp [step, handle, login, hk]

/-- Instance of C2: socket 2 asks for `A`, which socket 1 holds. -/
theorem login_taken_fails_witness :
    objGet (run State.init traceTwoLogins).1.onlineUsers 1 = some "A" ∧
    step (run State.init traceTwoLogins).1 (Input.fromSocket 2 (Event.login "A")) =
      ((run State.init traceTwoLogins).1,
        [(Target.socket 2, Msg.loginFailed "该用户ID已被使用，请选择其他ID")]) :=
  ⟨by decide, login_taken_fails (run State.init traceTwoLogins).1 2 1 "A" (by decide)⟩

/-! ## Call initiation -/

/-- Failure paths of `call`: if the sender has no `userId`, or the callee is the
sender's own identity, or the registry holds no entry for the callee, then
`call` emits exactly one `call-failed` to the sender and returns the state
unchanged, so no record is created. The registry entry of a socket that has
disconnected while bound to the empty string is an entry all the same. -/
theorem call_rejected_without_effect (s : State) (socket : SocketId) (calleeId : String)
    (now : Nat)
    (h : objGet s.userId socket = none ∨ objGet s.userId socket = some calleeId ∨
      ∀ k, objGet s.onlineUsers k ≠ some calleeId) :
    ∃ message, step s (Input.fromSocket socket (Event.call calleeId now)) =
      (s, [(Target.socket socket, Msg.callFailed message)]) := by
  simp only [step, handle, call]
  cases hu : objGet s.userId socket with
  | none => exact ⟨_, rfl⟩
  | some callerId =>
    simp only
    split
    · exact ⟨_, rfl⟩
    · split
      · exact ⟨_, rfl⟩
      · rename_i hne
        rcases h with h | h | h
        · simp [hu] at h
        · rw [hu] at h
          exact absurd (Option.some.inj h) hne
        · rw [(findKey_eq_none_iff _ _).2 h]
          exact ⟨_, rfl⟩

/-- Instance of the failure paths of `call`: `A` calls itself. -/
theorem call_rejected_without_effect_witness :
    (objGet (run State.init traceTwoLogins).1.userId 1 = none ∨
      objGet (run State.init traceTwoLogins).1.userId 1 = some "A" ∨
      ∀ k, objGet (run State.init traceTwoLogins).1.onlineUsers k ≠ some "A") ∧
    ∃ message, step (run State.init traceTwoLogins).1 (Input.fromSocket 1 (Event.call "A" 17)) =
      ((run State.init traceTwoLogins).1, [(Target.socket 1, Msg.callFailed message)]) :=
  ⟨Or.inr (Or.inl (by decide)),
    call_rejected_without_effect (run State.init traceTwoLogins).1 1 "A" 17
      (Or.inr (Or.inl (by decide)))⟩

/-- Claim C4, evaluated where it fails: the empty string logs in on socket 1 and
is answered `login-success`; `B` is bound to socket 2 and differs from the
sender's identity; yet `call(B)` from socket 1 emits `call-failed` with the
text asking to log in first, and creates no record, because `!callerId` holds
for the empty string. -/
theorem call_from_empty_identity_fails :
    (run State.init traceEmptyIdentity).2 =
      [(Target.socket 1, Msg.loginSuccess ""), (Target.all, Msg.userStatus "" "online"),
       (Target.socket 2, Msg.loginSuccess "B"), (Target.all, Msg.userStatus "B" "online")] ∧
    objGet (run State.init traceEmptyIdentity).1.userId 1 = some "" ∧
    objGet (run State.init traceEmptyIdentity).1.onlineUsers 1 = some "" ∧
    findKey (run State.init traceEmptyIdentity).1.onlineUsers "B" = some 2 ∧
    step (run State.init traceEmptyIdentity).1 (Input.fromSocket 1 (Event.call "B" 17)) =
      ((run State.init traceEmptyIdentity).1, [(Target.socket 1, Msg.callFailed "请先登录")]) := by
  decide

/-- Claim C5 fails as stated: in the reachable state where `A` has called `B` at
time 17 and `B` has answered, a second successful `call` of `A` to `B` with
`Date.now()` again 17 generates a call id that is already a key; the active
record is overwritten by a ringing one and the table does not grow. -/
theorem call_id_reused_within_same_timestamp :
    Reachable (run State.init traceAnswered).1 ∧
    mkCallId "A" "B" 17 ∈ objKeys (run State.init traceAnswered).1.calls ∧
    objGet (run State.init traceAnswered).1.calls (mkCallId "A" "B" 17) =
      some { caller := "A", callee := "B", status := Status.active } ∧
    (step (run State.init traceAnswered).1 (Input.fromSocket 1 (Event.call "B" 17))).2 =
      [(Target.socket 2, Msg.incomingCall (mkCallId "A" "B" 17) "A"),
       (Target.socket 1, Msg.callInitiated (mkCallId "A" "B" 17) "B")] ∧
    objGet (step (run State.init traceAnswered).1
        (Input.fromSocket 1 (Event.call "B" 17))).1.calls (mkCallId "A" "B" 17) =
      some { caller := "A", callee := "B", status := Status.ringing } ∧
    (step (run State.init traceAnswered).1
        (Input.fromSocket 1 (Event.call "B" 17))).1.calls.length =
      (run State.init traceAnswered).1.calls.length :=
  ⟨reachable_run traceAnswered, by decide, by decide, by decide, by decide, by decide⟩

/-- Claim C5, amended: in every state reached by inputs whose `call` timestamps
are all below `bound`, a successful `call` with `Date.now() ≥ bound` generates
a call id that is not yet a key of the call table; the new ringing record is
appended, every earlier record is still present and unchanged, and the table
grows by exactly one entry. -/
theorem call_id_fresh_after_earlier_timestamps (bound : Nat) (s : State)
    (hs : ReachableBefore bound s) (socket hB : SocketId) (a b : String) (now : Nat)
    (hnow : bound ≤ now) (hu : objGet s.userId socket = some a) (ha : a ≠ "") (hab : b ≠ a)
    (hf : findKey s.onlineUsers b = some hB) :
    mkCallId a b now ∉ objKeys s.calls ∧
    (step s (Input.fromSocket socket (Event.call b now))).1.calls =
      s.calls ++ [(mkCallId a b now, { caller := a, callee := b, status := Status.ringing })] ∧
    (∀ k c, objGet s.calls k = some c →
      objGet (step s (Input.fromSocket socket (Event.call b now))).1.calls k = some c) ∧
    (step s (Input.fromSocket socket (Event.call b now))).1.calls.length =
      s.calls.length + 1 := by
  have hnone : objGet s.calls (mkCallId a b now) = none := by
    cases hg : objGet s.calls (mkCallId a b now) with
    | none => rfl
    | some c =>
      obtain ⟨a', b', t, e, ht⟩ := reachableBefore_keys bound s hs _ c hg
      have := mkCallId_timestamp a b a' b' now t e
      omega
  have hset := objSet_of_objGet_none s.calls (mkCallId a b now)
    { caller := a, callee := b, status := Status.ringing } hnone
  rw [call_creates_record s socket hB a b now hu ha hab hf]
  refine ⟨not_mem_objKeys_of_objGet_none _ _ hnone, hset, ?_, ?_⟩
  · intro k c hk
    show objGet (objSet s.calls (mkCallId a b now) _) k = some c
    rw [objGet_objSet]
    split
    · rename_i e
      rw [e, hnone] at hk
      cases hk
    · exact hk
  · show (objSet s.calls (mkCallId a b now) _).length = _
    rw [hset]
    simp

/-- Instance of C5 (amended): after a call at time 17, a call at time 18 is fresh. -/
theorem call_id_fresh_after_earlier_timestamps_witness :
    ReachableBefore 18 (run State.init traceAnswered).1 ∧
    mkCallId "A" "B" 18 ∉ objKeys (run State.init traceAnswered).1.calls ∧
    (step (run State.init traceAnswered).1 (Input.fromSocket 1 (Event.call "B" 18))).1.calls =
      (run State.init traceAnswered).1.calls ++
        [(mkCallId "A" "B" 18, { caller := "A", callee := "B", status := Status.ringing })] :=
  ⟨reachableBefore_run 18 traceAnswered (by decide),
    (call_id_fresh_after_earlier_timestamps 18 (run State.init traceAnswered).1
      (reachableBefore_run 18 traceAnswered (by decide)) 1 2 "A" "B" 18 (by decide) (by decide)
      (by decide) (by decide) (by decide)).1,
    (call_id_fresh_after_earlier_timestamps 18 (run State.init traceAnswered).1
      (reachableBefore_run 18 traceAnswered (by decide)) 1 2 "A" "B" 18 (by decide) (by decide)
      (by decide) (by decide) (by decide)).2.1⟩

/-! ## Call state -/

/-- Claim C6 (third-party non-interference): for a record `r` stored under
`callId`, an `answer-call` or `reject-call` from a sender whose identity is not
`r.callee`, and an `end-call` from a sender whose identity is neither `r.caller`
nor `r.callee`, return the state unchanged; `answer-call` emits one `call-error`
to the sender, the other two emit nothing. -/
theorem third_party_noninterference (s : State) (socket : SocketId) (callId : String) (r : Call)
    (hr : objGet s.calls callId = some r) :
    (objGet s.userId socket ≠ some r.callee →
      step s (Input.fromSocket socket (Event.answerCall callId)) =
          (s, [(Target.socket socket, Msg.callError "无效的通话")]) ∧
        step s (Input.fromSocket socket (Event.rejectCall callId)) = (s, [])) ∧
    (objGet s.userId socket ≠ some r.caller → objGet s.userId socket ≠ some r.callee →
      step s (Input.fromSocket socket (Event.endCall callId)) = (s, [])) := by
  refine ⟨fun h => ?_, fun h1 h2 => ?_⟩
  · have h' : ¬ some r.callee = objGet s.userId socket := fun e => h e.symm
    simp [step, handle, answerCall, rejectCall, hr, h']
  · have h1' : ¬ some r.caller = objGet s.userId socket := fun e => h1 e.symm
    have h2' : ¬ some r.callee = objGet s.userId socket := fun e => h2 e.symm
    simp [step, handle, endCall, hr, h1', h2']

/-- Instance of C6: `C` on socket 3 tries to answer and to reject the call of `A` to `B`. -/
theorem third_party_noninterference_witness :
    objGet (run State.init traceThirdParty).1.calls "A-B-17" =
      some { caller := "A", callee := "B", status := Status.ringing } ∧
    step (run State.init traceThirdParty).1 (Input.fromSocket 3 (Event.answerCall "A-B-17")) =
      ((run State.init traceThirdParty).1, [(Target.socket 3, Msg.callError "无效的通话")]) ∧
    step (run State.init traceThirdParty).1 (Input.fromSocket 3 (Event.rejectCall "A-B-17")) =
      ((run State.init traceThirdParty).1, []) :=
  ⟨by decide,
    (third_party_noninterference (run State.init traceThirdParty).1 3 "A-B-17"
      { caller := "A", callee := "B", status := Status.ringing } (by decide)).1 (by decide)⟩

/-- Claim C7 fails as stated: in the reachable state where `A` has called `B` and
then ended the call, the record is `ended`; an `answer-call` from `B` moves it
to `active`, and a following `reject-call` from `B` moves it to `rejected`. -/
theorem answer_call_revives_ended_record :
    Reachable (run State.init traceEnded).1 ∧
    objGet (run State.init traceEnded).1.calls "A-B-17" =
      some { caller := "A", callee := "B", status := Status.ended } ∧
    objGet (step (run State.init traceEnded).1
        (Input.fromSocket 2 (Event.answerCall "A-B-17"))).1.calls "A-B-17" =
      some { caller := "A", callee := "B", status := Status.active } ∧
    objGet (step (step (run State.init traceEnded).1
        (Input.fromSocket 2 (Event.answerCall "A-B-17"))).1
        (Input.fromSocket 2 (Event.rejectCall "A-B-17"))).1.calls "A-B-17" =
      some { caller := "A", callee := "B", status := Status.rejected } :=
  ⟨reachable_run traceEnded, by decide, by decide, by decide⟩

/-- Inputs that change a status: whenever one input changes the status of the
record stored under `callId`, the input is an `answer-call` from the callee and
the new status is `active`, or a `reject-call` from the callee and the new
status is `rejected`, or an `end-call` from the caller or the callee and the
new status is `ended` (caller and callee are kept in these three cases), or a
`call` that generates the same call id and stores a `ringing` record. -/
theorem status_change_cases (s : State) (i : Input) (callId : String) (c c' : Call)
    (h : objGet s.calls callId = some c)
    (h' : objGet (step s i).1.calls callId = some c')
    (hne : c.status ≠ c'.status) :
    (∃ socket, i = Input.fromSocket socket (Event.answerCall callId) ∧
      objGet s.userId socket = some c.callee ∧ c' = { c with status := Status.active }) ∨
    (∃ socket, i = Input.fromSocket socket (Event.rejectCall callId) ∧
      objGet s.userId socket = some c.callee ∧ c' = { c with status := Status.rejected }) ∨
    (∃ socket, i = Input.fromSocket socket (Event.endCall callId) ∧
      (objGet s.userId socket = some c.caller ∨ objGet s.userId socket = some c.callee) ∧
      c' = { c with status := Status.ended }) ∨
    (∃ socket calleeId now callerId, i = Input.fromSocket socket (Event.call calleeId now) ∧
      objGet s.userId socket = some callerId ∧ callId = mkCallId callerId calleeId now ∧
      c' = { caller := callerId, callee := calleeId, status := Status.ringing }) := by
  have same : ∀ {x : Option Call}, x = some c' → x = some c → False := by
    intro x e1 e2
    rw [e1] at e2
    cases e2
    exact hne rfl
  cases i with
  | timer k =>
    simp only [step, purge] at h'
    split at h'
    · simp only [objGet_objDelete] at h'
      split at h'
      · cases h'
      · exact (same h' h).elim
    · exact (same h' h).elim
  | fromSocket socket e =>
    cases e with
    | login userId =>
      simp only [step, handle, login] at h'
      split at h' <;> exact (same h' h).elim
    | iceCandidate k x =>
      change objGet (iceCandidate s socket k x).1.calls callId = some c' at h'
      rw [iceCandidate_state] at h'
      exact (same h' h).elim
    | offer k x =>
      change objGet (offer s socket k x).1.calls callId = some c' at h'
      rw [offer_state] at h'
      exact (same h' h).elim
    | answer k x =>
      change objGet (answer s socket k x).1.calls callId = some c' at h'
      rw [answer_state] at h'
      exact (same h' h).elim
    | disconnect =>
      simp only [step, handle, disconnect] at h'
      split at h'
      · exact (same h' h).elim
      · split at h'
        · exact (same h' h).elim
        · exact (same (disconnect_fold_get _ _ _ _ _ _ h') h).elim
    | call calleeId now =>
      simp only [step, handle, call] at h'
      split at h'
      · exact (same h' h).elim
      · rename_i callerId hu
        split at h'
        · exact (same h' h).elim
        · split at h'
          · exact (same h' h).elim
          · split at h'
            · exact (same h' h).elim
            · simp only [objGet_objSet] at h'
              split at h'
              · rename_i e
                cases h'
                exact Or.inr (Or.inr (Or.inr ⟨socket, calleeId, now, callerId, rfl, hu, e, rfl⟩))
              · exact (same h' h).elim
    | answerCall k =>
      simp only [step, handle, answerCall] at h'
      split at h'
      · exact (same h' h).elim
      · rename_i c0 hc0
        split at h'
        · exact (same h' h).elim
        · rename_i hu
          have hu' : objGet s.userId socket = some c0.callee := by
            by_contra hn
            exact hu (fun e => hn e.symm)
          have hs : objGet (setStatus s.calls k Status.active) callId = some c' := by
            split at h' <;> exact h'
          obtain ⟨e1, e2⟩ := setStatus_change _ _ _ _ _ _ h hs hne
          subst e1
          rw [h] at hc0
          cases hc0
          exact Or.inl ⟨socket, rfl, hu', e2⟩
    | rejectCall k =>
      simp only [step, handle, rejectCall] at h'
      split at h'
      · exact (same h' h).elim
      · rename_i c0 hc0
        split at h'
        · exact (same h' h).elim
        · rename_i hu
          have hu' : objGet s.userId socket = some c0.callee := by
            by_contra hn
            exact hu (fun e => hn e.symm)
          have hs : objGet (setStatus s.calls k Status.rejected) callId = some c' := by
            split at h' <;> exact h'
          obtain ⟨e1, e2⟩ := setStatus_change _ _ _ _ _ _ h hs hne
          subst e1
          rw [h] at hc0
          cases hc0
          exact Or.inr (Or.inl ⟨socket, rfl, hu', e2⟩)
    | endCall k =>
      simp only [step, handle, endCall] at h'
      split at h'
      · exact (same h' h).elim
      · rename_i c0 hc0
        split at h'
        · exact (same h' h).elim
        · rename_i hu
          have hu' : objGet s.userId socket = some c0.caller ∨
              objGet s.userId socket = some c0.callee := by
            by_contra hn
            push_neg at hn
            exact hu ⟨fun e => hn.1 e.symm, fun e => hn.2 e.symm⟩
          obtain ⟨e1, e2⟩ := setStatus_change _ _ _ _ _ _ h h' hne
          subst e1
          rw [h] at hc0
          cases hc0
          exact Or.inr (Or.inr (Or.inl ⟨socket, rfl, hu', e2⟩))

/-- Claim C8 fails as stated: `A` on socket 1 calls `B`, then socket 1 logs in
again as `C`, which releases the identity `A`. In this reachable state the
record is ringing, `B` is its callee, and `end-call` from the socket of `B`
emits no `call-ended` at all. -/
theorem end_call_after_relogin_notifies_nobody :
    Reachable (run State.init traceRelogin).1 ∧
    objGet (run State.init traceRelogin).1.calls "A-B-17" =
      some { caller := "A", callee := "B", status := Status.ringing } ∧
    objGet (run State.init traceRelogin).1.userId 2 = some "B" ∧
    (step (run State.init traceRelogin).1 (Input.fromSocket 2 (Event.endCall "A-B-17"))).2 = [] :=
  ⟨reachable_run traceRelogin, by decide, by decide, by decide⟩

/-- Claim C8, amended: in every reachable state, for a record `r` (in particular
a ringing or active one) and an `end-call` sent by the socket of its caller or
of its callee, afterwards the record has status `ended`, nothing is emitted to
the sender, and, writing `other` for the other party of `r`: if `other` is bound
to a socket, exactly one `call-ended` is emitted, to a socket bound to `other`;
if `other` is bound to no socket, nothing is emitted. -/
theorem end_call_notifies_other_party (s : State) (hs : Reachable s) (socket : SocketId)
    (callId : String) (r : Call) (hr : objGet s.calls callId = some r)
    (hp : objGet s.userId socket = some r.caller ∨ objGet s.userId socket = some r.callee) :
    objGet (step s (Input.fromSocket socket (Event.endCall callId))).1.calls callId =
      some { r with status := Status.ended } ∧
    (∀ e ∈ (step s (Input.fromSocket socket (Event.endCall callId))).2,
      e.1 ≠ Target.socket socket) ∧
    (∀ k, objGet s.onlineUsers k =
          some (if objGet s.userId socket = some r.caller then r.callee else r.caller) →
      ∃ h, objGet s.onlineUsers h =
          some (if objGet s.userId socket = some r.caller then r.callee else r.caller) ∧
        (step s (Input.fromSocket socket (Event.endCall callId))).2 =
          [(Target.socket h, Msg.callEnded callId none)]) ∧
    ((∀ k, objGet s.onlineUsers k ≠
          some (if objGet s.userId socket = some r.caller then r.callee else r.caller)) →
      (step s (Input.fromSocket socket (Event.endCall callId))).2 = []) := by
  have hi := reachable_inv s hs
  have hd := hi.distinct callId r hr
  have hguard : ¬ (some r.caller ≠ objGet s.userId socket ∧
      some r.callee ≠ objGet s.userId socket) := by
    rintro ⟨h1, h2⟩
    rcases hp with h | h
    · exact h1 h.symm
    · exact h2 h.symm
  have hstep : step s (Input.fromSocket socket (Event.endCall callId)) =
      ({ s with calls := setStatus s.calls callId Status.ended,
                timers := s.timers ++ [callId] },
       endCallNotify socket callId (findKey s.onlineUsers r.caller) ++
         endCallNotify socket callId (findKey s.onlineUsers r.callee)) := by
    simp only [step, handle, endCall, hr, hguard, if_false]
  rw [hstep]
  have hout : ∀ (other : String) (u : String), objGet s.userId socket = some u → u ≠ other →
      (u = r.caller ∧ other = r.callee ∨ u = r.callee ∧ other = r.caller) →
      endCallNotify socket callId (findKey s.onlineUsers r.caller) ++
        endCallNotify socket callId (findKey s.onlineUsers r.callee) =
      endCallNotify socket callId (findKey s.onlineUsers other) := by
    intro other u hu _ hc
    have hown := findKey_own s hi socket u hu
    rcases hc with ⟨e1, e2⟩ | ⟨e1, e2⟩
    · subst e1; subst e2
      rw [hown]
      simp [endCallNotify]
    · subst e1; subst e2
      rw [hown]
      simp [endCallNotify]
  have hother : endCallNotify socket callId (findKey s.onlineUsers r.caller) ++
        endCallNotify socket callId (findKey s.onlineUsers r.callee) =
      endCallNotify socket callId (findKey s.onlineUsers
        (if objGet s.userId socket = some r.caller then r.callee else r.caller)) ∧
      ∃ u, objGet s.userId socket = some u ∧
        u ≠ (if objGet s.userId socket = some r.caller then r.callee else r.caller) := by
    by_cases hu : objGet s.userId socket = some r.caller
    · simp only [hu, if_true]
      exact ⟨hout r.callee r.caller hu hd (Or.inl ⟨rfl, rfl⟩), r.caller, rfl, hd⟩
    · have hu2 : objGet s.userId socket = some r.callee := hp.resolve_left hu
      simp only [hu, if_false]
      exact ⟨hout r.caller r.callee hu2 (fun e => hd e.symm) (Or.inr ⟨rfl, rfl⟩),
        r.callee, hu2, fun e => hd e.symm⟩
  obtain ⟨hsum, u, hu, hne⟩ := hother
  simp only [hsum]
  refine ⟨?_, ?_, ?_, ?_⟩
  · simp [objGet_setStatus, hr]
  · intro e he
    cases hf : findKey s.onlineUsers
        (if objGet s.userId socket = some r.caller then r.callee else r.caller) with
    | none => simp [hf, endCallNotify] at he
    | some h =>
      have hh := findKey_other_ne s hi socket h u _ hu hne hf
      simp [hf, endCallNotify, hh] at he
      subst he
      simpa using hh
  · intro k hk
    obtain ⟨h, hf⟩ := findKey_isSome_of_objGet _ _ _ hk
    have hh := findKey_other_ne s hi socket h u _ hu hne hf
    exact ⟨h, objGet_of_findKey _ _ _ hf, by simp [hf, endCallNotify, hh]⟩
  · intro hn
    rw [(findKey_eq_none_iff _ _).2 hn]
    rfl

/-- Instance of C8 (amended): `A` ends its ringing call to `B`. -/
theorem end_call_notifies_other_party_witness :
    Reachable (run State.init traceThirdParty).1 ∧
    objGet (run State.init traceThirdParty).1.calls "A-B-17" =
      some { caller := "A", callee := "B", status := Status.ringing } ∧
    (objGet (run State.init traceThirdParty).1.userId 1 = some "A" ∨
      objGet (run State.init traceThirdParty).1.userId 1 = some "B") ∧
    objGet (step (run State.init traceThirdParty).1
        (Input.fromSocket 1 (Event.endCall "A-B-17"))).1.calls "A-B-17" =
      some { caller := "A", callee := "B", status := Status.ended } :=
  ⟨reachable_run traceThirdParty, by decide, Or.inl (by decide),
    (end_call_notifies_other_party (run State.init traceThirdParty).1
      (reachable_run traceThirdParty) 1 "A-B-17"
      { caller := "A", callee := "B", status := Status.ringing } (by decide)
      (Or.inl (by decide))).1⟩

/-! ## Handshake relay -/

/-- Relay of `offer` and `answer` in terms of own keys of `calls` and of registry
entries: neither event changes the state. `offer` emits something exactly when
a record is stored under `callId`, the sender's identity is its caller and the
registry holds an entry for its callee; the output is then the single event
`offer` with the same call id and payload and `senderId` the caller, addressed
to a socket with such an entry. `answer` is symmetric, from the callee to the
caller. In a reachable state none of these emits is addressed to the sender.
Whether the socket of a registry entry is still connected is not part of the
statement. -/
theorem handshake_relay (s : State) (socket : SocketId) (callId payload : String) :
    (step s (Input.fromSocket socket (Event.offer callId payload))).1 = s ∧
    (step s (Input.fromSocket socket (Event.answer callId payload))).1 = s ∧
    ((step s (Input.fromSocket socket (Event.offer callId payload))).2 ≠ [] ↔
      ∃ c h, objGet s.calls callId = some c ∧ objGet s.userId socket = some c.caller ∧
        objGet s.onlineUsers h = some c.callee) ∧
    ((step s (Input.fromSocket socket (Event.answer callId payload))).2 ≠ [] ↔
      ∃ c h, objGet s.calls callId = some c ∧ objGet s.userId socket = some c.callee ∧
        objGet s.onlineUsers h = some c.caller) ∧
    (∀ c, objGet s.calls callId = some c → objGet s.userId socket = some c.caller →
      ∀ k, objGet s.onlineUsers k = some c.callee →
        ∃ h, objGet s.onlineUsers h = some c.callee ∧
          (step s (Input.fromSocket socket (Event.offer callId payload))).2 =
            [(Target.socket h, Msg.offer callId payload (some c.caller))]) ∧
    (∀ c, objGet s.calls callId = some c → objGet s.userId socket = some c.callee →
      ∀ k, objGet s.onlineUsers k = some c.caller →
        ∃ h, objGet s.onlineUsers h = some c.caller ∧
          (step s (Input.fromSocket socket (Event.answer callId payload))).2 =
            [(Target.socket h, Msg.answer callId payload (some c.callee))]) ∧
    (Reachable s →
      (∀ e ∈ (step s (Input.fromSocket socket (Event.offer callId payload))).2,
        e.1 ≠ Target.socket socket) ∧
      (∀ e ∈ (step s (Input.fromSocket socket (Event.answer callId payload))).2,
        e.1 ≠ Target.socket socket)) := by
  have ho := offer_out s socket callId payload
  have ha := answer_out s socket callId payload
  refine ⟨offer_state s socket callId payload, answer_state s socket callId payload,
    ?_, ?_, ?_, ?_, ?_⟩
  · show (offer s socket callId payload).2 ≠ [] ↔ _
    rcases ho with ⟨h1, h2⟩ | ⟨c, h, h1, h2, h3, h4⟩
    · simp only [h1, ne_eq, not_true_eq_false, false_iff]
      exact h2
    · rw [h4]
      simp only [ne_eq, List.cons_ne_nil, not_false_eq_true, true_iff]
      exact ⟨c, h, h1, h2, objGet_of_findKey _ _ _ h3⟩
  · show (answer s socket callId payload).2 ≠ [] ↔ _
    rcases ha with ⟨h1, h2⟩ | ⟨c, h, h1, h2, h3, h4⟩
    · simp only [h1, ne_eq, not_true_eq_false, false_iff]
      exact h2
    · rw [h4]
      simp only [ne_eq, List.cons_ne_nil, not_false_eq_true, true_iff]
      exact ⟨c, h, h1, h2, objGet_of_findKey _ _ _ h3⟩
  · intro c hc hu k hk
    show ∃ h, _ ∧ (offer s socket callId payload).2 = _
    rcases ho with ⟨_, h2⟩ | ⟨c', h, h1, _, h3, h4⟩
    · exact absurd ⟨c, k, hc, hu, hk⟩ h2
    · rw [hc] at h1
      cases h1
      exact ⟨h, objGet_of_findKey _ _ _ h3, h4⟩
  · intro c hc hu k hk
    show ∃ h, _ ∧ (answer s socket callId payload).2 = _
    rcases ha with ⟨_, h2⟩ | ⟨c', h, h1, _, h3, h4⟩
    · exact absurd ⟨c, k, hc, hu, hk⟩ h2
    · rw [hc] at h1
      cases h1
      exact ⟨h, objGet_of_findKey _ _ _ h3, h4⟩
  · intro hs
    have hi := reachable_inv s hs
    constructor
    · intro e he
      change e ∈ (offer s socket callId payload).2 at he
      rcases ho with ⟨h1, _⟩ | ⟨c, h, h1, h2, h3, h4⟩
      · simp [h1] at he
      · rw [h4, List.mem_singleton] at he
        subst he
        have := findKey_other_ne s hi socket h _ _ h2 (hi.distinct callId c h1) h3
        simpa using this
    · intro e he
      change e ∈ (answer s socket callId payload).2 at he
      rcases ha with ⟨h1, _⟩ | ⟨c, h, h1, h2, h3, h4⟩
      · simp [h1] at he
      · rw [h4, List.mem_singleton] at he
        subst he
        have := findKey_other_ne s hi socket h _ _ h2
          (fun e => hi.distinct callId c h1 e.symm) h3
        simpa using this

/-- Instance of the relay: the offer of `A` on socket 1 is not emitted back to socket 1. -/
theorem handshake_relay_witness :
    Reachable (run State.init traceAnswered).1 ∧
    ∀ e ∈ (step (run State.init traceAnswered).1
        (Input.fromSocket 1 (Event.offer "A-B-17" "sdp1"))).2, e.1 ≠ Target.socket 1 :=
  ⟨reachable_run traceAnswered,
    ((handshake_relay (run State.init traceAnswered).1 1 "A-B-17" "sdp1").2.2.2.2.2.2
      (reachable_run traceAnswered)).1⟩

/-- Claim C10, evaluated where it fails: with `A`, `B`, `C` on sockets 1, 2, 3 and
a call of `A` to `B`, an `ice-candidate` from `C`, who is no party of the call,
names by the wording of the claim the callee `B` as target, and `B` is bound to
socket 2; the handler, which does not check the sender, emits the candidate to
socket 1, the socket of the caller `A`. -/
theorem ice_candidate_third_party_goes_to_caller :
    objGet (run State.init traceThirdParty).1.calls "A-B-17" =
      some { caller := "A", callee := "B", status := Status.ringing } ∧
    objGet (run State.init traceThirdParty).1.userId 3 = some "C" ∧
    specIceTarget { caller := "A", callee := "B", status := Status.ringing } (some "C") = "B" ∧
    objGet (run State.init traceThirdParty).1.onlineUsers 2 = some "B" ∧
    (step (run State.init traceThirdParty).1
        (Input.fromSocket 3 (Event.iceCandidate "A-B-17" "cand"))).2 =
      [(Target.socket 1, Msg.iceCandidate "A-B-17" "cand" (some "C"))] ∧
    (step (run State.init traceThirdParty).1
        (Input.fromSocket 3 (Event.iceCandidate "A-B-17" "cand"))).2 ≠
      [(Target.socket 2, Msg.iceCandidate "A-B-17" "cand" (some "C"))] := by
  decide

/-- Evaluation of the `ice-candidate` handler for a record `r` stored under
`callId`: the handler computes `r.callee` as target if the sender's identity is
`r.caller`, and `r.caller` otherwise, without checking that the sender is a
party. If the registry holds an entry for the target, exactly one
`ice-candidate` with the same call id and candidate and with `senderId` the
sender's identity is emitted, to a socket with such an entry; otherwise nothing
is emitted. The state is unchanged. -/
theorem ice_candidate_relay (s : State) (socket : SocketId) (callId candidate : String)
    (r : Call) (hr : objGet s.calls callId = some r) :
    (step s (Input.fromSocket socket (Event.iceCandidate callId candidate))).1 = s ∧
    (∀ k, objGet s.onlineUsers k =
          some (if objGet s.userId socket = some r.caller then r.callee else r.caller) →
      ∃ h, objGet s.onlineUsers h =
          some (if objGet s.userId socket = some r.caller then r.callee else r.caller) ∧
        (step s (Input.fromSocket socket (Event.iceCandidate callId candidate))).2 =
          [(Target.socket h, Msg.iceCandidate callId candidate (objGet s.userId socket))]) ∧
    ((∀ k, objGet s.onlineUsers k ≠
          some (if objGet s.userId socket = some r.caller then r.callee else r.caller)) →
      (step s (Input.fromSocket socket (Event.iceCandidate callId candidate))).2 = []) := by
  refine ⟨iceCandidate_state s socket callId candidate, ?_, ?_⟩
  · intro k hk
    obtain ⟨h, hf⟩ := findKey_isSome_of_objGet _ _ _ hk
    refine ⟨h, objGet_of_findKey _ _ _ hf, ?_⟩
    by_cases hu : objGet s.userId socket = some r.caller
    · simp only [hu, if_true] at hf
      simp [step, handle, iceCandidate, hr, hu, hf]
    · have hu' : ¬ some r.caller = objGet s.userId socket := fun e => hu e.symm
      simp only [hu, if_false] at hf
      simp [step, handle, iceCandidate, hr, hu', hf]
  · intro hn
    have hf := (findKey_eq_none_iff _ _).2 hn
    by_cases hu : objGet s.userId socket = some r.caller
    · simp only [hu, if_true] at hf
      simp [step, handle, iceCandidate, hr, hu, hf]
    · have hu' : ¬ some r.caller = objGet s.userId socket := fun e => hu e.symm
      simp only [hu, if_false] at hf
      simp [step, handle, iceCandidate, hr, hu', hf]

/-- Instance of the `ice-candidate` handler: a candidate of `B` for the call of `A` to `B`. -/
theorem ice_candidate_relay_witness :
    objGet (run State.init traceThirdParty).1.calls "A-B-17" =
      some { caller := "A", callee := "B", status := Status.ringing } ∧
    (step (run State.init traceThirdParty).1
      (Input.fromSocket 2 (Event.iceCandidate "A-B-17" "cand"))).1 =
        (run State.init traceThirdParty).1 :=
  ⟨by decide,
    (ice_candidate_relay (run State.init traceThirdParty).1 2 "A-B-17" "cand"
      { caller := "A", callee := "B", status := Status.ringing } (by decide)).1⟩

/-! ## Distinct keys of the call table -/

section ObjMore

variable {κ : Type} {α : Type} [DecidableEq κ]

theorem objDelete_of_objGet_none (o : List (κ × α)) (k : κ) (h : objGet o k = none) :
    objDelete o k = o := by
  unfold objDelete
  rw [List.filter_eq_self]
  intro p hp
  have hk := not_mem_objKeys_of_objGet_none o k h
  have hne : p.1 ≠ k := fun e => hk (e ▸ List.mem_map.2 ⟨p, hp, rfl⟩)
  simpa using hne

theorem objKeys_objSet (o : List (κ × α)) (k : κ) (v : α) :
    objKeys (objSet o k v) = if k ∈ objKeys o then objKeys o else objKeys o ++ [k] := by
  induction o with
  | nil => simp [objSet, objKeys]
  | cons p rest ih =>
    obtain ⟨k0, v0⟩ := p
    by_cases h0 : k0 = k
    · simp [objSet, objKeys, h0]
    · have h0' : ¬ k = k0 := fun e => h0 e.symm
      simp only [objKeys] at ih
      simp only [objSet, h0, if_false, objKeys, List.map_cons, List.mem_cons, h0', false_or, ih]
      split <;> simp

theorem objDelete_sublist (o : List (κ × α)) (k : κ) : (objDelete o k).Sublist o := by
  unfold objDelete
  exact List.filter_sublist o

theorem objGet_of_mem_nodup (o : List (κ × α)) (hn : (objKeys o).Nodup) (k : κ) (v : α)
    (h : (k, v) ∈ o) : objGet o k = some v := by
  induction o with
  | nil => simp at h
  | cons p rest ih =>
    obtain ⟨k0, v0⟩ := p
    simp only [objKeys, List.map_cons, List.nodup_cons] at hn
    rcases List.mem_cons.1 h with e | e
    · cases e
      simp [objGet]
    · have hk : k ∈ rest.map Prod.fst := List.mem_map.2 ⟨(k, v), e, rfl⟩
      have h0 : ¬ k0 = k := fun e0 => hn.1 (e0 ▸ hk)
      simp only [objGet, h0, if_false]
      exact ih hn.2 e

theorem objGet_ne_of_keys (o : List (κ × α)) (v : α)
    (h : ∀ k ∈ objKeys o, objGet o k ≠ some v) : ∀ k, objGet o k ≠ some v :=
  fun k hk => h k (mem_objKeys_of_objGet o k v hk) hk

end ObjMore

theorem objKeys_setStatus (calls : List (String × Call)) (k : String) (st : Status) :
    objKeys (setStatus calls k st) = objKeys calls := by
  induction calls with
  | nil => rfl
  | cons p rest ih =>
    obtain ⟨k0, c0⟩ := p
    by_cases h0 : k0 = k
    · simp [setStatus, objKeys, h0]
    · simp only [objKeys] at ih
      simp [setStatus, objKeys, h0, ih]

theorem disconnectCall_sublist (ou : List (SocketId × String)) (u : String)
    (acc : List (String × Call) × List Emit) (callId : String) :
    (disconnectCall ou u acc callId).1.Sublist acc.1 := by
  unfold disconnectCall
  cases objGet acc.1 callId with
  | none => exact List.Sublist.refl _
  | some c =>
    simp only
    split
    · exact objDelete_sublist _ _
    · exact List.Sublist.refl _

theorem disconnect_fold_sublist (ou : List (SocketId × String)) (u : String) (ks : List String) :
    ∀ (acc : List (String × Call) × List Emit),
      (ks.foldl (disconnectCall ou u) acc).1.Sublist acc.1 := by
  induction ks with
  | nil => intro acc; exact List.Sublist.refl _
  | cons k0 rest ih =>
    intro acc
    simp only [List.foldl_cons]
    exact (ih _).trans (disconnectCall_sublist ou u acc k0)

theorem nodup_keys_of_sublist {κ α : Type} (o o1 : List (κ × α)) (h : o1.Sublist o)
    (hn : (objKeys o).Nodup) : (objKeys o1).Nodup :=
  List.Nodup.sublist (List.Sublist.map Prod.fst h) hn

theorem step_calls_nodup (s : State) (i : Input) (hn : (objKeys s.calls).Nodup) :
    (objKeys (step s i).1.calls).Nodup := by
  cases i with
  | timer k =>
    simp only [step, purge]
    split
    · exact nodup_keys_of_sublist _ _ (objDelete_sublist _ _) hn
    · exact hn
  | fromSocket socket e =>
    cases e with
    | login userId =>
      simp only [step, handle, login]
      split <;> exact hn
    | iceCandidate k x =>
      show (objKeys (iceCandidate s socket k x).1.calls).Nodup
      rw [iceCandidate_state]; exact hn
    | offer k x =>
      show (objKeys (offer s socket k x).1.calls).Nodup
      rw [offer_state]; exact hn
    | answer k x =>
      show (objKeys (answer s socket k x).1.calls).Nodup
      rw [answer_state]; exact hn
    | disconnect =>
      simp only [step, handle, disconnect]
      split
      · exact hn
      · split
        · exact hn
        · exact nodup_keys_of_sublist _ _ (disconnect_fold_sublist _ _ _ _) hn
    | call calleeId now =>
      simp only [step, handle, call]
      split
      · exact hn
      · split
        · exact hn
        · split
          · exact hn
          · split
            · exact hn
            · simp only [objKeys_objSet]
              split
              · exact hn
              · rename_i hk
                exact List.Nodup.append hn (List.nodup_singleton _)
                  (by simpa [List.disjoint_singleton] using hk)
    | answerCall k =>
      simp only [step, handle, answerCall]
      split
      · exact hn
      · split
        · exact hn
        · split <;> (simp only [objKeys_setStatus]; exact hn)
    | rejectCall k =>
      simp only [step, handle, rejectCall]
      split
      · exact hn
      · split
        · exact hn
        · split <;> (simp only [objKeys_setStatus]; exact hn)
    | endCall k =>
      simp only [step, handle, endCall]
      split
      · exact hn
      · split
        · exact hn
        · simp only [objKeys_setStatus]; exact hn

theorem reachable_calls_nodup (s : State) (h : Reachable s) : (objKeys s.calls).Nodup := by
  induction h with
  | init => simp [State.init, objKeys]
  | step i _ ih => exact step_calls_nodup _ i ih

/-! ## The disconnect handler -/

theorem disconnectCall_not_party (ou : List (SocketId × String)) (u : String)
    (acc : List (String × Call) × List Emit) (callId : String) (c : Call)
    (h : objGet (disconnectCall ou u acc callId).1 callId = some c) :
    ¬ (c.caller = u ∨ c.callee = u) := by
  unfold disconnectCall at h
  cases hc : objGet acc.1 callId with
  | none => simp [hc] at h
  | some c0 =>
    simp only [hc] at h
    split at h
    · simp [objGet_objDelete] at h
    · rename_i hn
      rw [hc] at h
      cases h
      exact hn

theorem disconnect_fold_not_party (ou : List (SocketId × String)) (u : String)
    (ks : List String) :
    ∀ (acc : List (String × Call) × List Emit) (k : String) (c : Call), k ∈ ks →
      objGet (ks.foldl (disconnectCall ou u) acc).1 k = some c →
      ¬ (c.caller = u ∨ c.callee = u) := by
  induction ks with
  | nil => intro acc k c hk; simp at hk
  | cons k0 rest ih =>
    intro acc k c hk h
    simp only [List.foldl_cons] at h
    by_cases hr : k ∈ rest
    · exact ih _ k c hr h
    · have e : k = k0 := by
        rcases List.mem_cons.1 hk with e | e
        · exact e
        · exact absurd e hr
      subst e
      exact disconnectCall_not_party ou u acc k c (disconnect_fold_get ou u rest _ k c h)

theorem disconnectCall_keeps (ou : List (SocketId × String)) (u : String)
    (acc : List (String × Call) × List Emit) (callId k : String) (c : Call)
    (h : objGet acc.1 k = some c) (hn : ¬ (c.caller = u ∨ c.callee = u)) :
    objGet (disconnectCall ou u acc callId).1 k = some c := by
  unfold disconnectCall
  cases hc : objGet acc.1 callId with
  | none => exact h
  | some c0 =>
    simp only
    split
    · rename_i hp
      have hne : ¬ k = callId := by
        intro e
        subst e
        rw [h] at hc
        cases hc
        exact hn hp
      simp [objGet_objDelete, hne, h]
    · exact h

theorem disconnect_fold_keeps (ou : List (SocketId × String)) (u : String) (ks : List String) :
    ∀ (acc : List (String × Call) × List Emit) (k : String) (c : Call),
      objGet acc.1 k = some c → ¬ (c.caller = u ∨ c.callee = u) →
      objGet (ks.foldl (disconnectCall ou u) acc).1 k = some c := by
  induction ks with
  | nil => intro acc k c h _; exact h
  | cons k0 rest ih =>
    intro acc k c h hn
    simp only [List.foldl_cons]
    exact ih _ k c (disconnectCall_keeps ou u acc k0 k c h hn) hn

theorem disconnect_fold_quiet (ou : List (SocketId × String)) (u : String) (ks : List String) :
    ∀ (acc : List (String × Call) × List Emit),
      (∀ k c, objGet acc.1 k = some c → (c.caller = u ∨ c.callee = u) →
        ¬ (c.status = Status.active ∨ c.status = Status.ringing)) →
      (ks.foldl (disconnectCall ou u) acc).2 = acc.2 := by
  induction ks with
  | nil => intro acc _; rfl
  | cons k0 rest ih =>
    intro acc hq
    simp only [List.foldl_cons]
    have h1 : (disconnectCall ou u acc k0).2 = acc.2 := by
      unfold disconnectCall
      cases hc : objGet acc.1 k0 with
      | none => rfl
      | some c0 =>
        simp only
        split
        · rename_i hp
          simp [hq k0 c0 hc hp]
        · rfl
    rw [ih _ (fun k c hk => hq k c (disconnectCall_get ou u acc k0 k c hk)), h1]

/-- Effect of `disconnect` for a socket bound to a non-empty identity. -/
theorem disconnect_truthy (s : State) (socket : SocketId) (u : String)
    (hu : objGet s.onlineUsers socket = some u) (hne : u ≠ "") :
    step s (Input.fromSocket socket Event.disconnect) =
      ({ onlineUsers := objDelete s.onlineUsers socket,
         calls := ((objKeys s.calls).foldl (disconnectCall (objDelete s.onlineUsers socket) u)
            (s.calls, [(Target.all, Msg.userStatus u "offline")])).1,
         userId := objDelete s.userId socket,
         timers := s.timers },
       ((objKeys s.calls).foldl (disconnectCall (objDelete s.onlineUsers socket) u)
            (s.calls, [(Target.all, Msg.userStatus u "offline")])).2) := by
  simp [step, handle, disconnect, hu, truthy, hne]

/-- After the disconnect of a socket bound to a non-empty identity `u`, no
record names `u`, and every record that does not name `u` is kept. -/
theorem disconnect_clears_records (s : State) (socket : SocketId) (u : String)
    (hu : objGet s.onlineUsers socket = some u) (hne : u ≠ "") :
    (∀ k c, objGet (step s (Input.fromSocket socket Event.disconnect)).1.calls k = some c →
      ¬ (c.caller = u ∨ c.callee = u) ∧ objGet s.calls k = some c) ∧
    (∀ k c, objGet s.calls k = some c → ¬ (c.caller = u ∨ c.callee = u) →
      objGet (step s (Input.fromSocket socket Event.disconnect)).1.calls k = some c) := by
  rw [disconnect_truthy s socket u hu hne]
  refine ⟨fun k c h => ?_, fun k c h hn => disconnect_fold_keeps _ _ _ _ k c h hn⟩
  have h0 := disconnect_fold_get _ _ _ _ k c h
  exact ⟨disconnect_fold_not_party _ _ _ _ k c (mem_objKeys_of_objGet _ _ _ h0) h, h0⟩

/-- A socket bound to a non-empty identity that is party to no ringing or
active record disconnects with the `user-status` broadcast as only emit. -/
theorem disconnect_without_calls (s : State) (socket : SocketId) (u : String)
    (hu : objGet s.onlineUsers socket = some u) (hne : u ≠ "")
    (hq : ∀ k c, objGet s.calls k = some c → (c.caller = u ∨ c.callee = u) →
      ¬ (c.status = Status.active ∨ c.status = Status.ringing)) :
    (step s (Input.fromSocket socket Event.disconnect)).2 =
      [(Target.all, Msg.userStatus u "offline")] := by
  rw [disconnect_truthy s socket u hu hne]
  exact disconnect_fold_quiet _ _ _ _ hq

/-- In a reachable state the disconnect of a socket bound to a non-empty
identity frees the socket and the identity, and a later `login` with the
identity succeeds. -/
theorem disconnect_frees_identity (s : State) (hs : Reachable s) (socket : SocketId) (u : String)
    (hu : objGet s.onlineUsers socket = some u) (hne : u ≠ "") :
    objGet (step s (Input.fromSocket socket Event.disconnect)).1.onlineUsers socket = none ∧
    (∀ k, objGet (step s (Input.fromSocket socket Event.disconnect)).1.onlineUsers k ≠ some u) ∧
    ∀ k, (step (step s (Input.fromSocket socket Event.disconnect)).1
        (Input.fromSocket k (Event.login u))).2 =
      [(Target.socket k, Msg.loginSuccess u), (Target.all, Msg.userStatus u "online")] := by
  have hi := reachable_inv s hs
  rw [disconnect_truthy s socket u hu hne]
  have hfree : ∀ k, objGet (objDelete s.onlineUsers socket) k ≠ some u := by
    intro k hk
    rw [objGet_objDelete] at hk
    split at hk
    · cases hk
    · rename_i hks
      exact hks (hi.unique k socket u hk hu)
  refine ⟨by simp [objGet_objDelete], hfree, fun k => ?_⟩
  simp [step, handle, login, (findKey_eq_none_iff _ _).2 hfree]

/-- In a reachable state the disconnect of a socket without registry entry
changes nothing and emits nothing. -/
theorem disconnect_unbound (s : State) (hs : Reachable s) (socket : SocketId)
    (hu : objGet s.onlineUsers socket = none) :
    step s (Input.fromSocket socket Event.disconnect) = (s, []) := by
  have hi := reachable_inv s hs
  have hid : objGet s.userId socket = none := by
    cases h : objGet s.userId socket with
    | none => rfl
    | some u =>
      have := hi.bound socket u h
      rw [hu] at this
      cases this
  simp [step, handle, disconnect, hu, objDelete_of_objGet_none _ _ hid]

theorem disconnectCall_out (ou : List (SocketId × String)) (u : String)
    (acc : List (String × Call) × List Emit) (k : String) (c : Call)
    (h : objGet acc.1 k = some c) :
    (disconnectCall ou u acc k).2 = acc.2 ++ (disconnectNotice ou u (k, c)).toList := by
  unfold disconnectCall disconnectNotice
  simp only [h]
  by_cases hp : c.caller = u ∨ c.callee = u
  · by_cases hs : c.status = Status.active ∨ c.status = Status.ringing
    · simp only [hp, hs, and_self, if_true]
      cases findKey ou (if c.caller = u then c.callee else c.caller) <;> simp
    · simp [hp, hs]
  · simp [hp]

theorem disconnect_fold_out (ou : List (SocketId × String)) (u : String) :
    ∀ (l : List (String × Call)) (acc : List (String × Call) × List Emit),
      (objKeys l).Nodup → (∀ p ∈ l, objGet acc.1 p.1 = some p.2) →
      ((objKeys l).foldl (disconnectCall ou u) acc).2 =
        acc.2 ++ l.filterMap (disconnectNotice ou u) := by
  intro l
  induction l with
  | nil => intro acc _ _; simp [objKeys]
  | cons p rest ih =>
    intro acc hn hacc
    obtain ⟨k, c⟩ := p
    simp only [objKeys, List.map_cons, List.nodup_cons] at hn
    have hk : objGet acc.1 k = some c := hacc (k, c) (List.mem_cons_self _ _)
    have hrest : ∀ q ∈ rest, objGet (disconnectCall ou u acc k).1 q.1 = some q.2 := by
      intro q hq
      have hqk : ¬ q.1 = k := fun e => hn.1 (e ▸ List.mem_map.2 ⟨q, hq, rfl⟩)
      have hq0 := hacc q (List.mem_cons_of_mem _ hq)
      unfold disconnectCall
      simp only [hk]
      split
      · simp [objGet_objDelete, hqk, hq0]
      · exact hq0
    have := ih (disconnectCall ou u acc k) hn.2 hrest
    simp only [objKeys] at this
    simp only [objKeys, List.map_cons, List.foldl_cons, this, disconnectCall_out ou u acc k c hk,
      List.append_assoc]
    congr 1
    cases hd : disconnectNotice ou u (k, c) <;> simp [List.filterMap_cons, hd]

/-- In a reachable state the disconnect of a socket bound to a non-empty
identity emits the `user-status` broadcast and then, in table order, one
`call-ended` per ringing or active record of the identity whose other party is
bound to a socket. -/
theorem disconnect_notices (s : State) (hs : Reachable s) (socket : SocketId) (u : String)
    (hu : objGet s.onlineUsers socket = some u) (hne : u ≠ "") :
    (step s (Input.fromSocket socket Event.disconnect)).2 =
      (Target.all, Msg.userStatus u "offline") ::
        s.calls.filterMap (disconnectNotice (objDelete s.onlineUsers socket) u) := by
  have hn := reachable_calls_nodup s hs
  rw [disconnect_truthy s socket u hu hne]
  have := disconnect_fold_out (objDelete s.onlineUsers socket) u s.calls
    (s.calls, [(Target.all, Msg.userStatus u "offline")]) hn
    (fun p hp => objGet_of_mem_nodup s.calls hn p.1 p.2 hp)
  simpa using this

/-- In a reachable state, removing the socket of `u` from the registry does not
change the socket found for another identity. -/
theorem findKey_objDelete_other (s : State) (hs : Reachable s) (socket : SocketId)
    (u v : String) (hu : objGet s.onlineUsers socket = some u) (huv : v ≠ u) :
    findKey (objDelete s.onlineUsers socket) v = findKey s.onlineUsers v := by
  have hi := reachable_inv s hs
  cases hf : findKey s.onlineUsers v with
  | none =>
    rw [findKey_eq_none_iff] at hf ⊢
    intro k hk
    rw [objGet_objDelete] at hk
    split at hk
    · cases hk
    · exact hf k hk
  | some h =>
    have h1 := objGet_of_findKey _ _ _ hf
    have hne : ¬ h = socket := by
      intro e
      rw [e, hu] at h1
      exact huv (Option.some.inj h1).symm
    have h2 : objGet (objDelete s.onlineUsers socket) h = some v := by
      simp [objGet_objDelete, hne, h1]
    obtain ⟨h3, hf3⟩ := findKey_isSome_of_objGet _ _ _ h2
    have h4 := objGet_of_findKey _ _ _ hf3
    rw [objGet_objDelete] at h4
    split at h4
    · cases h4
    · rw [hf3, hi.unique h3 h v h4 h1]

/-! ## Purge timers -/

/-- Successful `end-call`: the record becomes `ended`, a purge of the call id is
pending, and the purge removes the record. -/
theorem end_call_schedules_purge (s : State) (socket : SocketId) (callId : String) (r : Call)
    (hr : objGet s.calls callId = some r)
    (hp : objGet s.userId socket = some r.caller ∨ objGet s.userId socket = some r.callee) :
    objGet (step s (Input.fromSocket socket (Event.endCall callId))).1.calls callId =
      some { r with status := Status.ended } ∧
    callId ∈ (step s (Input.fromSocket socket (Event.endCall callId))).1.timers ∧
    objGet (step (step s (Input.fromSocket socket (Event.endCall callId))).1
      (Input.timer callId)).1.calls callId = none := by
  have hguard : ¬ (some r.caller ≠ objGet s.userId socket ∧
      some r.callee ≠ objGet s.userId socket) := by
    rintro ⟨h1, h2⟩
    rcases hp with h | h
    · exact h1 h.symm
    · exact h2 h.symm
  have hstep : (step s (Input.fromSocket socket (Event.endCall callId))).1 =
      { s with calls := setStatus s.calls callId Status.ended,
               timers := s.timers ++ [callId] } := by
    simp only [step, handle, endCall, hr, hguard, if_false]
  rw [hstep]
  refine ⟨by simp [objGet_setStatus, hr], by simp, ?_⟩
  simp [step, purge, objGet_objDelete]

/-- A purge that fires when its record is already gone leaves the call table as it is. -/
theorem purge_of_missing_record (s : State) (callId : String)
    (h : objGet s.calls callId = none) : (step s (Input.timer callId)).1.calls = s.calls := by
  simp only [step, purge]
  split
  · exact objDelete_of_objGet_none _ _ h
  · rfl

/-! ## Single-login reachability -/

theorem partiesBound_of_calls_subset (s t : State) (hb : PartiesBound s)
    (hou : t.onlineUsers = s.onlineUsers)
    (hc : ∀ k c, objGet t.calls k = some c →
      ∃ c0, objGet s.calls k = some c0 ∧ c.caller = c0.caller ∧ c.callee = c0.callee) :
    PartiesBound t := by
  intro k c h
  obtain ⟨c0, h0, e1, e2⟩ := hc k c h
  rw [hou, e1, e2]
  exact hb k c0 h0

theorem setStatus_parties (calls : List (String × Call)) (callId : String) (st : Status)
    (k : String) (c : Call) (h : objGet (setStatus calls callId st) k = some c) :
    ∃ c0, objGet calls k = some c0 ∧ c.caller = c0.caller ∧ c.callee = c0.callee := by
  rw [objGet_setStatus] at h
  split at h
  · cases h0 : objGet calls k with
    | none => simp [h0] at h
    | some c0 =>
      simp only [h0, Option.map_some', Option.some.injEq] at h
      subst h
      exact ⟨c0, rfl, rfl, rfl⟩
  · exact ⟨c, h, rfl, rfl⟩

theorem step_partiesBound (done : List SocketId) (s : State) (i : Input) (hi : Inv s)
    (hd : ∀ k u, objGet s.onlineUsers k = some u → k ∈ done)
    (hb : PartiesBound s) (hf : firstLogin done s i = true) :
    (∀ k u, objGet (step s i).1.onlineUsers k = some u → k ∈ loggedIn done s i) ∧
    PartiesBound (step s i).1 := by
  have same : ∀ c : Call, ∃ c0, some c = some c0 ∧ c.caller = c0.caller ∧ c.callee = c0.callee :=
    fun c => ⟨c, rfl, rfl, rfl⟩
  cases i with
  | timer callId =>
    refine ⟨by simpa [step, purge, loggedIn] using (by split <;> exact hd), ?_⟩
    apply partiesBound_of_calls_subset s _ hb
    · simp only [step, purge]; split <;> rfl
    · intro k c h
      simp only [step, purge] at h
      split at h
      · simp only [objGet_objDelete] at h
        split at h
        · cases h
        · exact ⟨c, h, rfl, rfl⟩
      · exact ⟨c, h, rfl, rfl⟩
  | fromSocket socket e =>
    cases e with
    | login userId =>
      simp only [step, handle, login, loggedIn]
      cases hfk : findKey s.onlineUsers userId with
      | some k0 => exact ⟨by simpa using hd, hb⟩
      | none =>
        have hnd : socket ∉ done := by
          simpa [firstLogin, hfk] using hf
        have hnone : objGet s.onlineUsers socket = none := by
          cases h : objGet s.onlineUsers socket with
          | none => rfl
          | some u => exact absurd (hd socket u h) hnd
        refine ⟨?_, ?_⟩
        · intro k u h
          simp only [objGet_objSet] at h
          simp only [if_true, List.mem_cons]
          split at h
          · rename_i e; exact Or.inl e
          · exact Or.inr (hd k u h)
        · intro k c h
          have keep : ∀ x, (∃ h0, objGet s.onlineUsers h0 = some x) →
              ∃ h0, objGet (objSet s.onlineUsers socket userId) h0 = some x := by
            rintro x ⟨h0, e0⟩
            have hne : ¬ h0 = socket := by
              intro e
              rw [e, hnone] at e0
              cases e0
            exact ⟨h0, by simp [objGet_objSet, hne, e0]⟩
          exact ⟨keep _ (hb k c h).1, keep _ (hb k c h).2⟩
    | iceCandidate k x =>
      have e : (step s (Input.fromSocket socket (Event.iceCandidate k x))).1 = s :=
        iceCandidate_state s socket k x
      rw [e]
      exact ⟨hd, hb⟩
    | offer k x =>
      have e : (step s (Input.fromSocket socket (Event.offer k x))).1 = s :=
        offer_state s socket k x
      rw [e]
      exact ⟨hd, hb⟩
    | answer k x =>
      have e : (step s (Input.fromSocket socket (Event.answer k x))).1 = s :=
        answer_state s socket k x
      rw [e]
      exact ⟨hd, hb⟩
    | call calleeId now =>
      simp only [step, handle, call, loggedIn]
      split
      · exact ⟨hd, hb⟩
      · rename_i callerId hu
        split
        · exact ⟨hd, hb⟩
        · split
          · exact ⟨hd, hb⟩
          · split
            · exact ⟨hd, hb⟩
            · rename_i calleeSocketId hfk
              refine ⟨hd, ?_⟩
              intro k c h
              simp only [objGet_objSet] at h
              split at h
              · cases h
                exact ⟨⟨socket, hi.bound socket callerId hu⟩,
                  ⟨calleeSocketId, objGet_of_findKey _ _ _ hfk⟩⟩
              · exact hb k c h
    | answerCall callId =>
      refine ⟨?_, ?_⟩
      · simp only [step, handle, answerCall, loggedIn]
        split
        · exact hd
        · split
          · exact hd
          · split <;> exact hd
      · apply partiesBound_of_calls_subset s _ hb
        · simp only [step, handle, answerCall]
          split
          · rfl
          · split
            · rfl
            · split <;> rfl
        · intro k c h
          simp only [step, handle, answerCall] at h
          split at h
          · exact ⟨c, h, rfl, rfl⟩
          · split at h
            · exact ⟨c, h, rfl, rfl⟩
            · have hs : objGet (setStatus s.calls callId Status.active) k = some c := by
                split at h <;> exact h
              exact setStatus_parties _ _ _ _ _ hs
    | rejectCall callId =>
      refine ⟨?_, ?_⟩
      · simp only [step, handle, rejectCall, loggedIn]
        split
        · exact hd
        · split
          · exact hd
          · split <;> exact hd
      · apply partiesBound_of_calls_subset s _ hb
        · simp only [step, handle, rejectCall]
          split
          · rfl
          · split
            · rfl
            · split <;> rfl
        · intro k c h
          simp only [step, handle, rejectCall] at h
          split at h
          · exact ⟨c, h, rfl, rfl⟩
          · split at h
            · exact ⟨c, h, rfl, rfl⟩
            · have hs : objGet (setStatus s.calls callId Status.rejected) k = some c := by
                split at h <;> exact h
              exact setStatus_parties _ _ _ _ _ hs
    | endCall callId =>
      refine ⟨?_, ?_⟩
      · simp only [step, handle, endCall, loggedIn]
        split
        · exact hd
        · split <;> exact hd
      · apply partiesBound_of_calls_subset s _ hb
        · simp only [step, handle, endCall]
          split
          · rfl
          · split <;> rfl
        · intro k c h
          simp only [step, handle, endCall] at h
          split at h
          · exact ⟨c, h, rfl, rfl⟩
          · split at h
            · exact ⟨c, h, rfl, rfl⟩
            · exact setStatus_parties _ _ _ _ _ h
    | disconnect =>
      cases hu : objGet s.onlineUsers socket with
      | none =>
        have e : (step s (Input.fromSocket socket Event.disconnect)).1 =
            { s with userId := objDelete s.userId socket } := by
          simp [step, handle, disconnect, hu]
        rw [e]
        exact ⟨hd, hb⟩
      | some u =>
        by_cases hne : u = ""
        · have e : (step s (Input.fromSocket socket Event.disconnect)).1 =
              { s with userId := objDelete s.userId socket } := by
            simp [step, handle, disconnect, hu, truthy, hne]
          rw [e]
          exact ⟨hd, hb⟩
        · have hclear := (disconnect_clears_records s socket u hu hne).1
          have hou : (step s (Input.fromSocket socket Event.disconnect)).1.onlineUsers =
              objDelete s.onlineUsers socket := by
            rw [disconnect_truthy s socket u hu hne]
          refine ⟨?_, ?_⟩
          · intro k v h
            rw [hou, objGet_objDelete] at h
            split at h
            · cases h
            · exact hd k v h
          · intro k c h
            obtain ⟨hn, h0⟩ := hclear k c h
            rw [hou]
            have keep : ∀ x, x ≠ u → (∃ h0, objGet s.onlineUsers h0 = some x) →
                ∃ h0, objGet (objDelete s.onlineUsers socket) h0 = some x := by
              rintro x hx ⟨h1, e1⟩
              have hne1 : ¬ h1 = socket := by
                intro e
                rw [e, hu] at e1
                exact hx (Option.some.inj e1).symm
              exact ⟨h1, by simp [objGet_objDelete, hne1, e1]⟩
            exact ⟨keep _ (fun e => hn (Or.inl e)) (hb k c h0).1,
              keep _ (fun e => hn (Or.inr e)) (hb k c h0).2⟩

theorem singleLogin_inv (done : List SocketId) (s : State) (h : ReachableSingleLogin done s) :
    Reachable s ∧ (∀ k u, objGet s.onlineUsers k = some u → k ∈ done) ∧ PartiesBound s := by
  induction h with
  | init =>
    refine ⟨Reachable.init, ?_, ?_⟩
    · intro k u h; simp [State.init, objGet] at h
    · intro k c h; simp [State.init, objGet] at h
  | step i _ hf ih =>
    obtain ⟨hr, hd, hb⟩ := ih
    have := step_partiesBound _ _ i (reachable_inv _ hr) hd hb hf
    exact ⟨Reachable.step i hr, this.1, this.2⟩

theorem reachableSingleLogin_run_from (is : List Input) :
    ∀ (done : List SocketId) (s : State) (out : List Emit), ReachableSingleLogin done s →
      allFirstLogin done s is = true →
      ReachableSingleLogin (loggedInAfter done s is)
        (is.foldl (fun acc i => ((step acc.1 i).1, acc.2 ++ (step acc.1 i).2)) (s, out)).1 := by
  induction is with
  | nil => intro done s out h _; exact h
  | cons i rest ih =>
    intro done s out h hall
    simp only [allFirstLogin, Bool.and_eq_true] at hall
    simp only [List.foldl_cons, loggedInAfter]
    exact ih _ _ _ (ReachableSingleLogin.step i h hall.1) hall.2

theorem reachableSingleLogin_run (is : List Input)
    (h : allFirstLogin [] State.init is = true) :
    ReachableSingleLogin (loggedInAfter [] State.init is) (run State.init is).1 :=
  reachableSingleLogin_run_from is [] State.init [] ReachableSingleLogin.init h

/-! ## Claims on relay, disconnect, invariants, scenario and purge -/

/-- Claim C11, evaluated where it fails: `A` on socket 1 has called `B` on socket
2. An `ice-candidate` for that call from socket 3, logged in as `C`, and one from
socket 4, which is not logged in, are each forwarded to socket 1, the socket of
the caller. The `offer` and `answer` handlers drop the same senders. -/
theorem ice_candidate_from_outsiders_is_forwarded :
    objGet (run State.init traceThirdParty).1.calls "A-B-17" =
      some { caller := "A", callee := "B", status := Status.ringing } ∧
    objGet (run State.init traceThirdParty).1.userId 3 = some "C" ∧
    (step (run State.init traceThirdParty).1
        (Input.fromSocket 3 (Event.iceCandidate "A-B-17" "cand"))).2 =
      [(Target.socket 1, Msg.iceCandidate "A-B-17" "cand" (some "C"))] ∧
    objGet (run State.init traceThirdParty).1.userId 4 = none ∧
    (step (run State.init traceThirdParty).1
        (Input.fromSocket 4 (Event.iceCandidate "A-B-17" "cand"))).2 =
      [(Target.socket 1, Msg.iceCandidate "A-B-17" "cand" none)] ∧
    (step (run State.init traceThirdParty).1
        (Input.fromSocket 3 (Event.offer "A-B-17" "sdp"))).2 = [] ∧
    (step (run State.init traceThirdParty).1
        (Input.fromSocket 3 (Event.answer "A-B-17" "sdp"))).2 = [] := by
  decide

/-- Claim C12, evaluated where it fails: the empty string is logged in on socket
1 and is the callee of a ringing call of `A`, who is connected on socket 2. The
disconnect of socket 1 emits nothing, so no `call-ended` reaches `A`. -/
theorem disconnect_of_empty_identity_notifies_nobody :
    objGet (run State.init traceEmptyCallee).1.onlineUsers 1 = some "" ∧
    objGet (run State.init traceEmptyCallee).1.userId 1 = some "" ∧
    objGet (run State.init traceEmptyCallee).1.onlineUsers 2 = some "A" ∧
    (run State.init traceEmptyCallee).1.calls =
      [("A--17", { caller := "A", callee := "", status := Status.ringing })] ∧
    (step (run State.init traceEmptyCallee).1 (Input.fromSocket 1 Event.disconnect)).2 = [] := by
  decide

/-- Claim C13, evaluated where it fails: after the disconnect of socket 1, which
is logged in as the empty string, the call table still holds the ringing record
that names the empty string as callee. -/
theorem disconnect_of_empty_identity_keeps_its_record :
    objGet (run State.init traceEmptyCallee).1.onlineUsers 1 = some "" ∧
    objGet (step (run State.init traceEmptyCallee).1
        (Input.fromSocket 1 Event.disconnect)).1.calls "A--17" =
      some { caller := "A", callee := "", status := Status.ringing } := by
  decide

/-- Claim C14, evaluated where it fails: socket 1 is logged in as the empty
string; after its disconnect the registry still binds socket 1 to the empty
string, and a later `login` with the empty string from socket 3 is answered
`login-failed`. -/
theorem disconnect_keeps_empty_identity_bound :
    objGet (run State.init traceEmptyIdentity).1.onlineUsers 1 = some "" ∧
    objGet (step (run State.init traceEmptyIdentity).1
        (Input.fromSocket 1 Event.disconnect)).1.onlineUsers 1 = some "" ∧
    step (step (run State.init traceEmptyIdentity).1 (Input.fromSocket 1 Event.disconnect)).1
        (Input.fromSocket 3 (Event.login "")) =
      ((step (run State.init traceEmptyIdentity).1 (Input.fromSocket 1 Event.disconnect)).1,
        [(Target.socket 3, Msg.loginFailed "该用户ID已被使用，请选择其他ID")]) := by
  decide

/-- Claim C15, evaluated where it fails: the empty string is logged in on socket
1 and there is no call record at all; the disconnect of socket 1 emits nothing,
in particular no `user-status` broadcast. -/
theorem disconnect_of_empty_identity_is_not_broadcast :
    objGet (run State.init traceEmptyIdentity).1.onlineUsers 1 = some "" ∧
    (run State.init traceEmptyIdentity).1.calls = [] ∧
    (step (run State.init traceEmptyIdentity).1 (Input.fromSocket 1 Event.disconnect)).2 = [] ∧
    (step (run State.init traceEmptyIdentity).1 (Input.fromSocket 1 Event.disconnect)).2 ≠
      [(Target.all, Msg.userStatus "" "offline")] := by
  decide

/-- Claim C16 (call-table invariant): in every state reachable from the initial
state by any sequence of inputs, every record of the call table has a caller
different from its callee. -/
theorem calls_parties_distinct (s : State) (hs : Reachable s) (k : String) (c : Call)
    (h : (k, c) ∈ s.calls) : c.caller ≠ c.callee :=
  (reachable_inv s hs).distinct k c
    (objGet_of_mem_nodup s.calls (reachable_calls_nodup s hs) k c h)

/-- Instance of C16: the record of the call of `A` to `B`. -/
theorem calls_parties_distinct_witness :
    Reachable (run State.init traceThirdParty).1 ∧
    (("A-B-17", { caller := "A", callee := "B", status := Status.ringing }) :
      String × Call) ∈ (run State.init traceThirdParty).1.calls ∧
    ("A" : String) ≠ "B" :=
  ⟨reachable_run traceThirdParty, by decide,
    calls_parties_distinct (run State.init traceThirdParty).1 (reachable_run traceThirdParty)
      "A-B-17" { caller := "A", callee := "B", status := Status.ringing } (by decide)⟩

/-- Claim C17 (end-to-end scenario): for distinct sockets `hA` and `hB`, the
emits of the nine inputs of `scenario`, input by input: each login is answered
and broadcast; the call delivers `incoming-call` to `hB` and `call-initiated`
to `hA`; the answer-call delivers `call-answered` to `hA` and `call-connected`
to `hB`; offer, answer and both candidates reach the other side with `senderId`
attached; the disconnect of `hA` broadcasts `user-status` offline for `A` and
delivers `call-ended` with the reason to `hB`. Afterwards the call table is
empty and only `B` is registered. -/
theorem end_to_end_scenario (hA hB : SocketId) (hne : hA ≠ hB) (now : Nat)
    (sdp1 sdp2 candA candB : String) :
    outputs State.init (scenario hA hB now sdp1 sdp2 candA candB) =
      [[(Target.socket hA, Msg.loginSuccess "A"), (Target.all, Msg.userStatus "A" "online")],
       [(Target.socket hB, Msg.loginSuccess "B"), (Target.all, Msg.userStatus "B" "online")],
       [(Target.socket hB, Msg.incomingCall (mkCallId "A" "B" now) "A"),
        (Target.socket hA, Msg.callInitiated (mkCallId "A" "B" now) "B")],
       [(Target.socket hA, Msg.callAnswered (mkCallId "A" "B" now)),
        (Target.socket hB, Msg.callConnected (mkCallId "A" "B" now))],
       [(Target.socket hB, Msg.offer (mkCallId "A" "B" now) sdp1 (some "A"))],
       [(Target.socket hA, Msg.answer (mkCallId "A" "B" now) sdp2 (some "B"))],
       [(Target.socket hB, Msg.iceCandidate (mkCallId "A" "B" now) candA (some "A"))],
       [(Target.socket hA, Msg.iceCandidate (mkCallId "A" "B" now) candB (some "B"))],
       [(Target.all, Msg.userStatus "A" "offline"),
        (Target.socket hB, Msg.callEnded (mkCallId "A" "B" now) (some "对方已下线"))]] ∧
    (run State.init (scenario hA hB now sdp1 sdp2 candA candB)).1 =
      { onlineUsers := [(hB, "B")], calls := [], userId := [(hB, "B")], timers := [] } := by
  have hne' : hB ≠ hA := fun e => hne e.symm
  have h1 :
      step
          State.init
          (Input.fromSocket hA (Event.login "A")) =
        (
          { onlineUsers := [(hA, "A")],
            calls := [],
            userId := [(hA, "A")], timers := [] },
        [(Target.socket hA, Msg.loginSuccess "A"), (Target.all, Msg.userStatus "A" "online")]) := by
    simp [step, handle, login, findKey, objKeys, objSet, State.init]
  have h2 :
      step
          { onlineUsers := [(hA, "A")],
            calls := [],
            userId := [(hA, "A")], timers := [] }
          (Input.fromSocket hB (Event.login "B")) =
        (
          { onlineUsers := [(hA, "A"), (hB, "B")],
            calls := [],
            userId := [(hA, "A"), (hB, "B")], timers := [] },
        [(Target.socket hB, Msg.loginSuccess "B"), (Target.all, Msg.userStatus "B" "online")]) := by
    simp [step, handle, login, findKey, objKeys, objGet, objSet, hne]
  have h3 :
      step
          { onlineUsers := [(hA, "A"), (hB, "B")],
            calls := [],
            userId := [(hA, "A"), (hB, "B")], timers := [] }
          (Input.fromSocket hA (Event.call "B" now)) =
        (
          { onlineUsers := [(hA, "A"), (hB, "B")],
            calls := [(mkCallId "A" "B" now,
              { caller := "A", callee := "B", status := Status.ringing })],
            userId := [(hA, "A"), (hB, "B")], timers := [] },
        [(Target.socket hB, Msg.incomingCall (mkCallId "A" "B" now) "A"),
         (Target.socket hA, Msg.callInitiated (mkCallId "A" "B" now) "B")]) := by
    simp [step, handle, call, findKey, objKeys, objGet, objSet, truthy, hne, hne']
  have h4 :
      step
          { onlineUsers := [(hA, "A"), (hB, "B")],
            calls := [(mkCallId "A" "B" now,
              { caller := "A", callee := "B", status := Status.ringing })],
            userId := [(hA, "A"), (hB, "B")], timers := [] }
          (Input.fromSocket hB (Event.answerCall (mkCallId "A" "B" now))) =
        (
          { onlineUsers := [(hA, "A"), (hB, "B")],
            calls := [(mkCallId "A" "B" now,
              { caller := "A", callee := "B", status := Status.active })],
            userId := [(hA, "A"), (hB, "B")], timers := [] },
        [(Target.socket hA, Msg.callAnswered (mkCallId "A" "B" now)),
         (Target.socket hB, Msg.callConnected (mkCallId "A" "B" now))]) := by
    simp [step, handle, answerCall, findKey, objKeys, objGet, setStatus, hne, hne']
  have h5 :
      step
          { onlineUsers := [(hA, "A"), (hB, "B")],
            calls := [(mkCallId "A" "B" now,
              { caller := "A", callee := "B", status := Status.active })],
            userId := [(hA, "A"), (hB, "B")], timers := [] }
          (Input.fromSocket hA (Event.offer (mkCallId "A" "B" now) sdp1)) =
        (
          { onlineUsers := [(hA, "A"), (hB, "B")],
            calls := [(mkCallId "A" "B" now,
              { caller := "A", callee := "B", status := Status.active })],
            userId := [(hA, "A"), (hB, "B")], timers := [] },
        [(Target.socket hB, Msg.offer (mkCallId "A" "B" now) sdp1 (some "A"))]) := by
    simp [step, handle, offer, findKey, objKeys, objGet, hne, hne']
  have h6 :
      step
          { onlineUsers := [(hA, "A"), (hB, "B")],
            calls := [(mkCallId "A" "B" now,
              { caller := "A", callee := "B", status := Status.active })],
            userId := [(hA, "A"), (hB, "B")], timers := [] }
          (Input.fromSocket hB (Event.answer (mkCallId "A" "B" now) sdp2)) =
        (
          { onlineUsers := [(hA, "A"), (hB, "B")],
            calls := [(mkCallId "A" "B" now,
              { caller := "A", callee := "B", status := Status.active })],
            userId := [(hA, "A"), (hB, "B")], timers := [] },
        [(Target.socket hA, Msg.answer (mkCallId "A" "B" now) sdp2 (some "B"))]) := by
    simp [step, handle, answer, findKey, objKeys, objGet, hne, hne']
  have h7 :
      step
          { onlineUsers := [(hA, "A"), (hB, "B")],
            calls := [(mkCallId "A" "B" now,
              { caller := "A", callee := "B", status := Status.active })],
            userId := [(hA, "A"), (hB, "B")], timers := [] }
          (Input.fromSocket hA (Event.iceCandidate (mkCallId "A" "B" now) candA)) =
        (
          { onlineUsers := [(hA, "A"), (hB, "B")],
            calls := [(mkCallId "A" "B" now,
              { caller := "A", callee := "B", status := Status.active })],
            userId := [(hA, "A"), (hB, "B")], timers := [] },
        [(Target.socket hB, Msg.iceCandidate (mkCallId "A" "B" now) candA (some "A"))]) := by
    simp [step, handle, iceCandidate, findKey, objKeys, objGet, hne, hne']
  have h8 :
      step
          { onlineUsers := [(hA, "A"), (hB, "B")],
            calls := [(mkCallId "A" "B" now,
              { caller := "A", callee := "B", status := Status.active })],
            userId := [(hA, "A"), (hB, "B")], timers := [] }
          (Input.fromSocket hB (Event.iceCandidate (mkCallId "A" "B" now) candB)) =
        (
          { onlineUsers := [(hA, "A"), (hB, "B")],
            calls := [(mkCallId "A" "B" now,
              { caller := "A", callee := "B", status := Status.active })],
            userId := [(hA, "A"), (hB, "B")], timers := [] },
        [(Target.socket hA, Msg.iceCandidate (mkCallId "A" "B" now) candB (some "B"))]) := by
    simp [step, handle, iceCandidate, findKey, objKeys, objGet, hne, hne']
  have h9 :
      step
          { onlineUsers := [(hA, "A"), (hB, "B")],
            calls := [(mkCallId "A" "B" now,
              { caller := "A", callee := "B", status := Status.active })],
            userId := [(hA, "A"), (hB, "B")], timers := [] }
          (Input.fromSocket hA Event.disconnect) =
        (
          { onlineUsers := [(hB, "B")],
            calls := [],
            userId := [(hB, "B")], timers := [] },
        [(Target.all, Msg.userStatus "A" "offline"),
         (Target.socket hB, Msg.callEnded (mkCallId "A" "B" now) (some "对方已下线"))]) := by
    simp [step, handle, disconnect, disconnectCall, findKey, objKeys, objGet, objDelete, truthy,
      hne, hne']
  constructor
  · simp only [scenario, outputs, h1, h2, h3, h4, h5, h6, h7, h8, h9]
  · simp only [scenario, run, List.foldl_cons, List.foldl_nil, h1, h2, h3, h4, h5, h6, h7, h8, h9]

/-- Instance of C17 with sockets 1 and 2 at time 17. -/
theorem end_to_end_scenario_witness :
    (1 : SocketId) ≠ 2 ∧
    (outputs State.init (scenario 1 2 17 "sdp1" "sdp2" "candA" "candB")).getLast? =
      some [(Target.all, Msg.userStatus "A" "offline"),
        (Target.socket 2, Msg.callEnded "A-B-17" (some "对方已下线"))] ∧
    (run State.init (scenario 1 2 17 "sdp1" "sdp2" "candA" "candB")).1.calls = [] :=
  ⟨by decide, by decide,
    congrArg State.calls
      (end_to_end_scenario 1 2 (by decide) 17 "sdp1" "sdp2" "candA" "candB").2⟩

/-- Claim C18, evaluated where it fails: after `B` has rejected the call of `A`
the record is `rejected` and no purge is pending; a timer for the call id does
nothing and the record stays. After an `end-call` on the same call the purge is
pending and removes the record. -/
theorem reject_call_schedules_no_purge :
    (run State.init traceRejected).1.calls =
      [("A-B-17", { caller := "A", callee := "B", status := Status.rejected })] ∧
    (run State.init traceRejected).1.timers = [] ∧
    step (run State.init traceRejected).1 (Input.timer "A-B-17") =
      ((run State.init traceRejected).1, []) ∧
    (run State.init traceEnded).1.calls =
      [("A-B-17", { caller := "A", callee := "B", status := Status.ended })] ∧
    (run State.init traceEnded).1.timers = ["A-B-17"] ∧
    (step (run State.init traceEnded).1 (Input.timer "A-B-17")).1.calls = [] := by
  decide

/-- Claim C19 fails as stated: `A` on socket 1 calls `B`, then socket 1 logs in
again as `C`, so the caller `A` is bound to no socket. The `answer-call` of `B`
emits nothing but moves the record from `ringing` to `active`. -/
theorem answer_call_with_caller_gone_sets_active :
    Reachable (run State.init traceRelogin).1 ∧
    objGet (run State.init traceRelogin).1.calls "A-B-17" =
      some { caller := "A", callee := "B", status := Status.ringing } ∧
    objGet (run State.init traceRelogin).1.userId 2 = some "B" ∧
    (∀ k ∈ objKeys (run State.init traceRelogin).1.onlineUsers,
      objGet (run State.init traceRelogin).1.onlineUsers k ≠ some "A") ∧
    (step (run State.init traceRelogin).1 (Input.fromSocket 2 (Event.answerCall "A-B-17"))).2 =
      [] ∧
    objGet (step (run State.init traceRelogin).1
        (Input.fromSocket 2 (Event.answerCall "A-B-17"))).1.calls "A-B-17" =
      some { caller := "A", callee := "B", status := Status.active } :=
  ⟨reachable_run traceRelogin, by decide, by decide, by decide, by decide, by decide⟩

/-- Claim C19, amended: an `answer-call` sent by the callee of a record whose
caller is bound to no socket emits nothing and leaves registry, socket
properties and timers unchanged; in the call table the status of that record is
set to `active`, its caller and callee and all other records are unchanged. -/
theorem answer_call_with_caller_gone (s : State) (socket : SocketId) (callId : String)
    (r : Call) (hr : objGet s.calls callId = some r)
    (hu : objGet s.userId socket = some r.callee)
    (hgone : ∀ k, objGet s.onlineUsers k ≠ some r.caller) :
    step s (Input.fromSocket socket (Event.answerCall callId)) =
      ({ s with calls := setStatus s.calls callId Status.active }, []) ∧
    objGet (setStatus s.calls callId Status.active) callId =
      some { r with status := Status.active } ∧
    ∀ k, k ≠ callId → objGet (setStatus s.calls callId Status.active) k = objGet s.calls k := by
  refine ⟨?_, by simp [objGet_setStatus, hr], fun k hk => by simp [objGet_setStatus, hk]⟩
  simp [step, handle, answerCall, hr, hu, (findKey_eq_none_iff _ _).2 hgone]

/-- Instance of C19 (amended): `B` answers after the socket of `A` has become `C`. -/
theorem answer_call_with_caller_gone_witness :
    objGet (run State.init traceRelogin).1.calls "A-B-17" =
      some { caller := "A", callee := "B", status := Status.ringing } ∧
    step (run State.init traceRelogin).1 (Input.fromSocket 2 (Event.answerCall "A-B-17")) =
      ({ (run State.init traceRelogin).1 with
          calls := setStatus (run State.init traceRelogin).1.calls "A-B-17" Status.active },
        []) :=
  ⟨by decide,
    (answer_call_with_caller_gone (run State.init traceRelogin).1 2 "A-B-17"
      { caller := "A", callee := "B", status := Status.ringing } (by decide) (by decide)
      (objGet_ne_of_keys _ _ (by decide))).1⟩

/-- Registry entries of the parties: in every state reached by inputs in which
every socket performs at most one successful `login`, the registry holds an
entry for the caller and for the callee of every record, so the `findKey`
lookup of either party succeeds. Whether the socket of the entry is still
connected is not part of the statement. -/
theorem parties_bound_when_single_login (done : List SocketId) (s : State)
    (hs : ReachableSingleLogin done s) (k : String) (c : Call)
    (hk : objGet s.calls k = some c) :
    (∃ h, findKey s.onlineUsers c.caller = some h ∧ objGet s.onlineUsers h = some c.caller) ∧
    (∃ h, findKey s.onlineUsers c.callee = some h ∧ objGet s.onlineUsers h = some c.callee) := by
  obtain ⟨⟨h1, e1⟩, ⟨h2, e2⟩⟩ := (singleLogin_inv done s hs).2.2 k c hk
  obtain ⟨k1, f1⟩ := findKey_isSome_of_objGet _ _ _ e1
  obtain ⟨k2, f2⟩ := findKey_isSome_of_objGet _ _ _ e2
  exact ⟨⟨k1, f1, objGet_of_findKey _ _ _ f1⟩, ⟨k2, f2, objGet_of_findKey _ _ _ f2⟩⟩

/-- Instance of the registry entries of the parties: the call of `A` to `B` after three
first logins. -/
theorem parties_bound_when_single_login_witness :
    ReachableSingleLogin (loggedInAfter [] State.init traceThirdParty)
      (run State.init traceThirdParty).1 ∧
    objGet (run State.init traceThirdParty).1.calls "A-B-17" =
      some { caller := "A", callee := "B", status := Status.ringing } ∧
    (∃ h, findKey (run State.init traceThirdParty).1.onlineUsers "A" = some h ∧
      objGet (run State.init traceThirdParty).1.onlineUsers h = some "A") ∧
    (∃ h, findKey (run State.init traceThirdParty).1.onlineUsers "B" = some h ∧
      objGet (run State.init traceThirdParty).1.onlineUsers h = some "B") :=
  ⟨reachableSingleLogin_run traceThirdParty (by decide), by decide,
    parties_bound_when_single_login _ _ (reachableSingleLogin_run traceThirdParty (by decide))
      "A-B-17" { caller := "A", callee := "B", status := Status.ringing } (by decide)⟩

/-! ## Status assignments and stale registry entries -/

theorem answerCall_sets_active (s : State) (socket : SocketId) (callId : String) (c : Call)
    (h : objGet s.calls callId = some c) (hu : objGet s.userId socket = some c.callee) :
    objGet (step s (Input.fromSocket socket (Event.answerCall callId))).1.calls callId =
      some { c with status := Status.active } := by
  have hs : (step s (Input.fromSocket socket (Event.answerCall callId))).1.calls =
      setStatus s.calls callId Status.active := by
    simp only [step, handle, answerCall, h, hu, ne_eq, not_true_eq_false, if_false]
    cases findKey s.onlineUsers c.caller <;> rfl
  rw [hs, objGet_setStatus]
  simp [h]

theorem rejectCall_sets_rejected (s : State) (socket : SocketId) (callId : String) (c : Call)
    (h : objGet s.calls callId = some c) (hu : objGet s.userId socket = some c.callee) :
    objGet (step s (Input.fromSocket socket (Event.rejectCall callId))).1.calls callId =
      some { c with status := Status.rejected } := by
  have hs : (step s (Input.fromSocket socket (Event.rejectCall callId))).1.calls =
      setStatus s.calls callId Status.rejected := by
    simp only [step, handle, rejectCall, h, hu, ne_eq, not_true_eq_false, if_false]
    cases findKey s.onlineUsers c.caller <;> rfl
  rw [hs, objGet_setStatus]
  simp [h]

/-- Claim C7, amended: for the record `c` stored under `callId`, in every state.
First, whenever one input changes its status, the input is an `answer-call`
from the callee and the new status is `active`, or a `reject-call` from the
callee and the new status is `rejected`, or an `end-call` from the caller or
the callee and the new status is `ended`, or a `call` that generates the same
call id and stores a `ringing` record. Second, the status before the input is
not examined: whatever the status of `c` is, an `answer-call` from its callee
sets it to `active`, a `reject-call` from its callee sets it to `rejected`, and
an `end-call` from its caller or callee sets it to `ended`. -/
theorem status_changes_only_by_request (s : State) (callId : String) (c : Call)
    (h : objGet s.calls callId = some c) :
    (∀ (i : Input) (c' : Call), objGet (step s i).1.calls callId = some c' →
      c.status ≠ c'.status →
      (∃ socket, i = Input.fromSocket socket (Event.answerCall callId) ∧
        objGet s.userId socket = some c.callee ∧ c' = { c with status := Status.active }) ∨
      (∃ socket, i = Input.fromSocket socket (Event.rejectCall callId) ∧
        objGet s.userId socket = some c.callee ∧ c' = { c with status := Status.rejected }) ∨
      (∃ socket, i = Input.fromSocket socket (Event.endCall callId) ∧
        (objGet s.userId socket = some c.caller ∨ objGet s.userId socket = some c.callee) ∧
        c' = { c with status := Status.ended }) ∨
      (∃ socket calleeId now callerId, i = Input.fromSocket socket (Event.call calleeId now) ∧
        objGet s.userId socket = some callerId ∧ callId = mkCallId callerId calleeId now ∧
        c' = { caller := callerId, callee := calleeId, status := Status.ringing })) ∧
    (∀ socket, objGet s.userId socket = some c.callee →
      objGet (step s (Input.fromSocket socket (Event.answerCall callId))).1.calls callId =
          some { c with status := Status.active } ∧
        objGet (step s (Input.fromSocket socket (Event.rejectCall callId))).1.calls callId =
          some { c with status := Status.rejected }) ∧
    (∀ socket,
      objGet s.userId socket = some c.caller ∨ objGet s.userId socket = some c.callee →
      objGet (step s (Input.fromSocket socket (Event.endCall callId))).1.calls callId =
        some { c with status := Status.ended }) :=
  ⟨fun i c' h' hne => status_change_cases s i callId c c' h h' hne,
    fun socket hu =>
      ⟨answerCall_sets_active s socket callId c h hu,
        rejectCall_sets_rejected s socket callId c h hu⟩,
    fun socket hu => (end_call_schedules_purge s socket callId c h hu).1⟩

/-- Instance of C7 (amended): `B` answers, then rejects, the call that `A` has ended. -/
theorem status_changes_only_by_request_witness :
    objGet (run State.init traceEnded).1.calls "A-B-17" =
      some { caller := "A", callee := "B", status := Status.ended } ∧
    objGet (run State.init traceEnded).1.userId 2 = some "B" ∧
    objGet (step (run State.init traceEnded).1
        (Input.fromSocket 2 (Event.answerCall "A-B-17"))).1.calls "A-B-17" =
      some { caller := "A", callee := "B", status := Status.active } ∧
    objGet (step (run State.init traceEnded).1
        (Input.fromSocket 2 (Event.rejectCall "A-B-17"))).1.calls "A-B-17" =
      some { caller := "A", callee := "B", status := Status.rejected } :=
  ⟨by decide, by decide,
    (status_changes_only_by_request (run State.init traceEnded).1 "A-B-17"
      { caller := "A", callee := "B", status := Status.ended } (by decide)).2.1 2 (by decide)⟩

/-- Claim C3, evaluated where it fails: the empty string logs in on socket 1 and
socket 1 disconnects, which leaves its registry entry in place. The only socket
bound to the empty string is thus one that has disconnected, yet a `call` of
`A` to the empty identity stores a ringing record and emits `incoming-call` to
socket 1 and `call-initiated` to the sender instead of `call-failed`. -/
theorem call_to_stale_identity_succeeds :
    disconnected traceStaleEntry = [1] ∧
    objGet (run State.init traceStaleEntry).1.userId 2 = some "A" ∧
    (∀ h ∈ objKeys (run State.init traceStaleEntry).1.onlineUsers,
      objGet (run State.init traceStaleEntry).1.onlineUsers h = some "" →
        h ∈ disconnected traceStaleEntry) ∧
    (run State.init traceStaleEntry).1.calls = [] ∧
    (step (run State.init traceStaleEntry).1 (Input.fromSocket 2 (Event.call "" 17))).1.calls =
      [("A--17", { caller := "A", callee := "", status := Status.ringing })] ∧
    (step (run State.init traceStaleEntry).1 (Input.fromSocket 2 (Event.call "" 17))).2 =
      [(Target.socket 1, Msg.incomingCall "A--17" "A"),
       (Target.socket 2, Msg.callInitiated "A--17" "")] := by
  decide

/-- Claim C9, evaluated where it fails: `A` on socket 2 has called the empty
identity of socket 1, and socket 1 has disconnected, which leaves its registry
entry in place. The callee is bound to no live socket, yet the `offer` of the
caller is emitted, to the socket id of the stale entry. -/
theorem offer_reaches_stale_socket :
    disconnected traceStaleCallee = [1] ∧
    objGet (run State.init traceStaleCallee).1.calls "A--17" =
      some { caller := "A", callee := "", status := Status.ringing } ∧
    objGet (run State.init traceStaleCallee).1.userId 2 = some "A" ∧
    (∀ h ∈ objKeys (run State.init traceStaleCallee).1.onlineUsers,
      objGet (run State.init traceStaleCallee).1.onlineUsers h = some "" →
        h ∈ disconnected traceStaleCallee) ∧
    (step (run State.init traceStaleCallee).1
        (Input.fromSocket 2 (Event.offer "A--17" "sdp1"))).2 =
      [(Target.socket 1, Msg.offer "A--17" "sdp1" (some "A"))] := by
  decide

/-- Claim C20, evaluated where it fails: in `traceStaleCallee` every socket logs
in at most once. Afterwards the call table holds the ringing record of `A` to
the empty identity, and the only socket bound to the callee, the one that
`findKey` returns, has disconnected. -/
theorem callee_held_by_disconnected_socket :
    allFirstLogin [] State.init traceStaleCallee = true ∧
    ReachableSingleLogin (loggedInAfter [] State.init traceStaleCallee)
      (run State.init traceStaleCallee).1 ∧
    disconnected traceStaleCallee = [1] ∧
    objGet (run State.init traceStaleCallee).1.calls "A--17" =
      some { caller := "A", callee := "", status := Status.ringing } ∧
    findKey (run State.init traceStaleCallee).1.onlineUsers "" = some 1 ∧
    (∀ h ∈ objKeys (run State.init traceStaleCallee).1.onlineUsers,
      objGet (run State.init traceStaleCallee).1.onlineUsers h = some "" →
        h ∈ disconnected traceStaleCallee) :=
  ⟨by decide, reachableSingleLogin_run traceStaleCallee (by decide), by decide, by decide,
    by decide, by decide⟩

end Server
